import Mathlib

/-!
# Advertising-System: the query path of `storage.QueryData` and the handlers

A shallow embedding of `src/storage/mongo_func.go` (the data model, the filter
`QueryData` hands to the document store, the sort by `EndAt`, the pagination,
`StoreData`) and of the handlers `ProcessGet` and `ProcessPost` of
`src/process`.

The collaborators of this code live outside the repository, and the part of
their behaviour that the code relies on is written out here:

* the Go driver, which turns a `File` into a stored document (`File.toBSON`);
* the document store, whose `find` decides which stored documents a filter
  selects (`BSON.selects`): dotted paths, traversal of arrays, the equality
  match (null matches a missing field), `$gt`, `$gte`, `$lt`, `$lte`, `$and` and
  `$or`;
* `sort.Slice`, taken by its contract (`SliceSorter`) where only the order by
  `EndAt` matters, and as the library runs it (`sortSlice`) where the order of
  ads with equal `EndAt` is in question;
* `strconv.Atoi` (`Atoi`) and, of the web framework, the query parameters and
  the `c.JSON` answers of a handler (`Context`, `GetRun`, `PostRun`);
* `time.Time`, of which the store keeps the instant (`Time`), while `==` also
  compares the nanoseconds below the resolution of the store and the location
  pointer (`TimeExtra`).

Go `int` values are integers; the one addition of `QueryData` wraps at 64 bits.
-/

namespace AdSystem

/-! ## Data model (`src/storage/mongo_func.go`, lines 13-43) -/

/-- Instants of `time.Time`, counted in the resolution of the document store. -/
abbrev Time := Int

/-- Go struct `Condition`. A Go slice `[]string` is `Option (List String)`:
`none` is the nil slice, `some []` the empty non-nil slice `[]string{}`. -/
structure Condition where
  AgeStart : Int
  AgeEnd : Int
  Gender : Option (List String)
  Country : Option (List String)
  Platform : Option (List String)
  deriving DecidableEq, Repr

/-- Go struct `File`, the stored ad. `Conditions` is a Go slice (`none` = nil). -/
structure File where
  Title : String
  StartAt : Time
  EndAt : Time
  Conditions : Option (List Condition)
  deriving DecidableEq, Repr

/-- Go struct `QueryRequest`. -/
structure QueryRequest where
  ClientIP : String
  Headers : List (String × List String)
  Offset : Int
  Limit : Int
  Age : Int
  Gender : String
  Country : String
  Platform : String
  deriving DecidableEq, Repr

/-! ## BSON values and `bson.M` -/

/-- The BSON values that occur in stored ads and in the filters of `QueryData`. -/
inductive BSON where
  | null
  | int (n : Int)
  | str (s : String)
  | date (t : Time)
  | arr (items : List BSON)
  | doc (fields : List (String × BSON))
  deriving Repr

/-- Go `bson.M`: a map from keys to values, kept as an association list with
at most one entry per key. -/
abbrev M := List (String × BSON)

/-- Map assignment `m[k] = v`: an existing entry for `k` is overwritten. -/
def M.set : M → String → BSON → M
  | [], k, v => [(k, v)]
  | (k0, v0) :: rest, k, v =>
    if k0 = k then (k, v) :: rest else (k0, v0) :: M.set rest k v

/-- Map read `m[k]`. -/
def M.get : M → String → Option BSON
  | [], _ => none
  | (k0, v0) :: rest, k => if k0 = k then some v0 else M.get rest k

/-! ## How the driver stores an ad

The Go driver encodes a struct field under its lower-cased name, a nil slice
as BSON null and a non-nil slice as a BSON array. -/

/-- Encoding of a `[]string` field. -/
def encodeStrings : Option (List String) → BSON
  | none => .null
  | some xs => .arr (xs.map .str)

/-- Encoding of one `Condition`. -/
def Condition.toBSON (c : Condition) : BSON :=
  .doc [("agestart", .int c.AgeStart), ("ageend", .int c.AgeEnd),
        ("gender", encodeStrings c.Gender), ("country", encodeStrings c.Country),
        ("platform", encodeStrings c.Platform)]

/-- Encoding of the `[]Condition` field. -/
def encodeConditions : Option (List Condition) → BSON
  | none => .null
  | some cs => .arr (cs.map Condition.toBSON)

/-- The document `InsertOneRecord` writes for an ad. -/
def File.toBSON (f : File) : BSON :=
  .doc [("title", .str f.Title), ("startat", .date f.StartAt),
        ("endat", .date f.EndAt), ("conditions", encodeConditions f.Conditions)]

/-! ## The document store's `find`: which documents a filter selects -/

/-- Splits the characters of a dotted key at every `.`. -/
def splitChars : List Char → List Char → List String
  | [], cur => [String.mk cur.reverse]
  | c :: cs, cur =>
    if c = '.' then String.mk cur.reverse :: splitChars cs [] else splitChars cs (c :: cur)

/-- The components of a dotted field path: `conditions.gender` has the
components `conditions` and `gender`. -/
def splitPath (key : String) : List String := splitChars key.data []

/-- One step from an embedded document to the field `k`; `none` is a missing
field. A value that is not a document has no fields. -/
def fieldOf (k : String) : BSON → Option BSON
  | .doc fields => M.get fields k
  | _ => none

/-- The values a dotted path reaches in a document (`none` = the path is
missing there). An array met on the way is traversed: the path continues in
each element that is an embedded document, other elements are skipped.
Positional components (`conditions.0`) do not occur in the keys of the program
and are read as field names. -/
def pathValues : List String → BSON → List (Option BSON)
  | [], v => [some v]
  | k :: ks, .arr items =>
    items.flatMap fun item =>
      match item with
      | .doc fields =>
        match M.get fields k with
        | some w => pathValues ks w
        | none => [none]
      | _ => []
  | k :: ks, v =>
    match fieldOf k v with
    | some w => pathValues ks w
    | none => [none]

/-- The values a predicate is tested on: a value reached by the path and, when
that value is an array, each of its elements as well. -/
def candidates : Option BSON → List (Option BSON)
  | some (.arr items) => some (.arr items) :: items.map some
  | v => [v]

/-- Equality match against a query operand. The operand null matches a null
value and a missing field. Array and document operands are not used by the
program and select nothing here. -/
def eqMatch : BSON → Option BSON → Bool
  | .null, none => true
  | .null, some .null => true
  | .int n, some (.int m) => decide (m = n)
  | .str s, some (.str t) => decide (t = s)
  | .date t, some (.date u) => decide (u = t)
  | _, _ => false

/-- Comparison operators. A value is only comparable with an operand of its
own type; operands other than numbers and dates are not used by the program
and select nothing here. -/
def opMatch (op : String) : BSON → Option BSON → Bool
  | .int n, some (.int m) =>
    if op = "$gt" then decide (n < m) else if op = "$gte" then decide (n ≤ m)
    else if op = "$lt" then decide (m < n) else if op = "$lte" then decide (m ≤ n)
    else false
  | .date t, some (.date u) =>
    if op = "$gt" then decide (t < u) else if op = "$gte" then decide (t ≤ u)
    else if op = "$lt" then decide (u < t) else if op = "$lte" then decide (u ≤ t)
    else false
  | _, _ => false

/-- A field condition `key: spec` on a document. When `spec` is a document it
is a list of operators, each of which must be met by some candidate value;
otherwise `spec` is an operand of an equality match. -/
def matchField (key : String) (spec : BSON) (d : BSON) : Bool :=
  let cands := (pathValues (splitPath key) d).flatMap candidates
  match spec with
  | .doc ops => ops.all fun p => cands.any (opMatch p.1 p.2)
  | operand => cands.any (eqMatch operand)

mutual
/-- Does the document `d` satisfy the filter? All entries of a filter document
must hold. -/
def BSON.selects : BSON → BSON → Bool
  | .doc entries, d => selectsAll entries d
  | _, _ => false
termination_by structural f => f
/-- Every entry of a filter document holds. -/
def selectsAll : List (String × BSON) → BSON → Bool
  | [], _ => true
  | (k, v) :: rest, d => selectsEntry k v d && selectsAll rest d
termination_by structural entries => entries
/-- One entry: `$or`, `$and`, or a condition on a field path. -/
def selectsEntry : String → BSON → BSON → Bool
  | k, .arr fs, d =>
    if k = "$or" then selectsSome fs d
    else if k = "$and" then selectsEvery fs d
    else matchField k (.arr fs) d
  | k, v, d => if k = "$or" ∨ k = "$and" then false else matchField k v d
termination_by structural _ v => v
/-- Some filter of the list is satisfied (`$or`). -/
def selectsSome : List BSON → BSON → Bool
  | [], _ => false
  | f :: fs, d => BSON.selects f d || selectsSome fs d
termination_by structural fs => fs
/-- Every filter of the list is satisfied (`$and`). -/
def selectsEvery : List BSON → BSON → Bool
  | [], _ => true
  | f :: fs, d => BSON.selects f d && selectsEvery fs d
termination_by structural fs => fs
end

/-- The store's `find` over a collection of stored ads: the ads whose
documents satisfy the filter, in the collection's order. -/
def find (filter : M) (docs : List File) : List File :=
  docs.filter fun ad => BSON.selects (.doc filter) ad.toBSON

/-! ## `QueryData` (`src/storage/mongo_func.go`, lines 68-143) -/

/-- The `[]bson.M` literal of the age clause (lines 87-96). -/
def ageOr (age : Int) : BSON :=
  .arr [
    .doc [("$and", .arr [
      .doc [("conditions.agestart", .doc [("$lte", .int age)])],
      .doc [("conditions.ageend", .doc [("$gte", .int age)])]])],
    .doc [("$and", .arr [
      .doc [("conditions.agestart", .int 0)],
      .doc [("conditions.ageend", .int 0)]])]]

/-- The `[]bson.M` literal of the gender clause (lines 99-102). -/
def genderOr (gender : String) : BSON :=
  .arr [
    .doc [("conditions.gender", .str gender)],
    .doc [("conditions.gender", .null)]]

/-- The `[]bson.M` literal of the country clause (lines 105-108). -/
def countryOr (country : String) : BSON :=
  .arr [
    .doc [("conditions.country", .str country)],
    .doc [("conditions.country", .null)]]

/-- The `[]bson.M` literal of the platform clause (lines 111-114). -/
def platformOr (platform : String) : BSON :=
  .arr [
    .doc [("conditions.platform", .str platform)],
    .doc [("conditions.Platform", .null)]]

/-- The filter `QueryData` builds (lines 83-115), `now` being `time.Now()`. -/
def queryFilter (now : Time) (query : QueryRequest) : M :=
  let filter : M := []
  let filter := filter.set "endat" (.doc [("$gt", .date now)])
  let filter := if query.Age ≠ 0 then filter.set "$or" (ageOr query.Age) else filter
  let filter := if query.Gender ≠ "" then filter.set "$or" (genderOr query.Gender) else filter
  let filter := if query.Country ≠ "" then filter.set "$or" (countryOr query.Country) else filter
  let filter :=
    if query.Platform ≠ "" then filter.set "$or" (platformOr query.Platform) else filter
  filter

/-- Whether the stored ad satisfies the filter `QueryData` builds. -/
def satisfiesFilter (now : Time) (query : QueryRequest) (ad : File) : Bool :=
  BSON.selects (.doc (queryFilter now query)) ad.toBSON

/-- The library routine `sort.Slice`, known by its contract only: it permutes
the slice, and for a comparison by a key the outcome is ordered by that key.
The order of elements with equal keys is left open. -/
structure SliceSorter where
  sort : List File → (File → File → Bool) → List File
  perm : ∀ (xs : List File) (less : File → File → Bool), (sort xs less).Perm xs
  sorted : ∀ (xs : List File) (key : File → Int),
    (sort xs fun a b => decide (key a < key b)).Pairwise fun a b => key a ≤ key b

/-- What the environment of one `QueryData` call does: the outcome of each
store-side step (`some msg` = that step fails with this error) and the
documents of the collection in the order `find` yields them. -/
structure Store where
  config : Option String
  connect : Option String
  findErr : Option String
  decodeErr : Option String
  docs : List File

/-- The outcome of a `QueryData` call: the pair `(results, nil)`, the pair
`([]File{}, err)`, or a run-time panic of a slice expression. -/
inductive Outcome where
  | ok (results : List File)
  | fail (msg : String)
  | panic
  deriving DecidableEq, Repr

/-- Go `int` addition: 64-bit two's complement. -/
def addInt64 (a b : Int) : Int := (a + b + 2 ^ 63) % 2 ^ 64 - 2 ^ 63

/-- Lines 133-142: the offset check and the two slice expressions. A slice
expression `s[lo:hi]` panics unless `0 ≤ lo ≤ hi ≤ len s`. -/
def paginate (results : List File) (offset limit : Int) : Outcome :=
  let len : Int := results.length
  if offset > len then .fail "offset is out of index in the query results"
  else if addInt64 offset limit > len then
    if 0 ≤ offset then .ok (results.drop offset.toNat) else .panic
  else
    let hi := addInt64 offset limit
    if 0 ≤ offset ∧ offset ≤ hi then
      .ok ((results.take hi.toNat).drop offset.toNat)
    else .panic

/-- Go function `QueryData`, run with the sorting routine `s`, in the
environment `env`, at time `now`. -/
def QueryData (s : SliceSorter) (env : Store) (now : Time) (query : QueryRequest) :
    Outcome :=
  match env.config with
  | some err => .fail err
  | none =>
  match env.connect with
  | some err => .fail err
  | none =>
  let filter := queryFilter now query
  match env.findErr with
  | some err => .fail err
  | none =>
  match env.decodeErr with
  | some _ => .ok []
  | none =>
  let results := find filter env.docs
  let results := s.sort results fun a b => decide (a.EndAt < b.EndAt)
  paginate results query.Offset query.Limit

/-! ## An instance of the sorting routine -/

/-- Insertion of `x` into a slice: before the first element that `x` is less than. -/
def insertInto (less : File → File → Bool) (x : File) : List File → List File
  | [] => [x]
  | y :: ys => if less x y then x :: y :: ys else y :: insertInto less x ys

/-- Insertion sort, element by element from the left. -/
def insertionSort (less : File → File → Bool) (xs : List File) : List File :=
  xs.foldl (fun acc x => insertInto less x acc) []

/-- Insertion sort meets the contract of `sort.Slice`. -/
def insertionSorter : SliceSorter where
  sort xs less := insertionSort less xs
  perm := by
    intro xs less
    have hins : ∀ (x : File) (l : List File), (insertInto less x l).Perm (x :: l) := by
      intro x l
      induction l with
      | nil => exact List.Perm.refl _
      | cons y ys ih =>
        unfold insertInto
        split
        · exact List.Perm.refl _
        · exact ((List.Perm.cons y ih).trans (List.Perm.swap x y ys))
    have hfold : ∀ (l acc : List File),
        (l.foldl (fun acc x => insertInto less x acc) acc).Perm (acc ++ l) := by
      intro l
      induction l with
      | nil => intro acc; simp
      | cons y ys ih =>
        intro acc
        rw [List.foldl_cons]
        refine (ih _).trans ?_
        refine ((hins y acc).append_right ys).trans ?_
        exact List.perm_middle.symm
    simpa [insertionSort] using hfold xs []
  sorted := by
    intro xs key
    have hmem : ∀ (x : File) (l : List File) (z : File),
        z ∈ insertInto (fun a b => decide (key a < key b)) x l → z = x ∨ z ∈ l := by
      intro x l
      induction l with
      | nil => intro z hz; simpa [insertInto] using hz
      | cons y ys ih =>
        intro z hz
        unfold insertInto at hz
        split at hz
        · simpa using hz
        · rcases List.mem_cons.mp hz with h | h
          · exact Or.inr (by simp [h])
          · rcases ih z h with h1 | h1
            · exact Or.inl h1
            · exact Or.inr (List.mem_cons_of_mem _ h1)
    have hins : ∀ (x : File) (l : List File),
        l.Pairwise (fun a b => key a ≤ key b) →
        (insertInto (fun a b => decide (key a < key b)) x l).Pairwise
          (fun a b => key a ≤ key b) := by
      intro x l
      induction l with
      | nil => intro _; simp [insertInto]
      | cons y ys ih =>
        intro hp
        have hy := List.pairwise_cons.mp hp
        unfold insertInto
        split
        · rename_i hlt
          have hlt2 : key x < key y := by simpa using hlt
          refine List.pairwise_cons.mpr ⟨?_, hp⟩
          intro z hz
          rcases List.mem_cons.mp hz with h | h
          · subst h; exact le_of_lt hlt2
          · exact le_trans (le_of_lt hlt2) (hy.1 z h)
        · rename_i hlt
          have hge : key y ≤ key x := by simpa using hlt
          refine List.pairwise_cons.mpr ⟨?_, ih hy.2⟩
          intro z hz
          rcases hmem x ys z hz with h | h
          · subst h; exact hge
          · exact hy.1 z h
    have hfold : ∀ (l acc : List File),
        acc.Pairwise (fun a b => key a ≤ key b) →
        (l.foldl (fun acc x => insertInto (fun a b => decide (key a < key b)) x acc)
          acc).Pairwise (fun a b => key a ≤ key b) := by
      intro l
      induction l with
      | nil => intro acc h; simpa using h
      | cons y ys ih =>
        intro acc h
        rw [List.foldl_cons]
        exact ih _ (hins y acc h)
    simpa [insertionSort] using hfold xs [] List.Pairwise.nil

/-! ## Vocabulary of the properties and sample data -/

/-- The elements of the `Conditions` slice (none for a nil slice). -/
def File.conds (ad : File) : List Condition := ad.Conditions.getD []

/-- Whether the stored ad satisfies one `$or` clause on its own. -/
def satisfiesClause (clause : BSON) (ad : File) : Bool :=
  selectsEntry "$or" clause ad.toBSON

/-- The condition `ProcessPost` appends when a request has none
(`src/process/post.go`, lines 48-54). -/
def defaultCondition : Condition :=
  { AgeStart := 0, AgeEnd := 0, Gender := some [], Country := some [], Platform := some [] }

/-- The all-nil condition of the tests in `src/storage/mongo_func_test.go`. -/
def nilCondition : Condition :=
  { AgeStart := 0, AgeEnd := 0, Gender := none, Country := none, Platform := none }

/-- An ad titled as in the tests, starting at 0, ending at `endAt`. -/
def testAd (title : String) (endAt : Time) (conditions : Option (List Condition)) : File :=
  { Title := title, StartAt := 0, EndAt := endAt, Conditions := conditions }

/-- A request for the first ad (offset 0, limit 1, as in the tests) with the
given optional dimensions. -/
def dimQuery (age : Int) (gender country platform : String) : QueryRequest :=
  { ClientIP := "", Headers := [], Offset := 0, Limit := 1, Age := age, Gender := gender,
    Country := country, Platform := platform }

/-- A request for a page, with no optional dimension. -/
def pageQuery (offset limit : Int) : QueryRequest :=
  { ClientIP := "", Headers := [], Offset := offset, Limit := limit, Age := 0, Gender := "",
    Country := "", Platform := "" }

/-- A condition that restricts the age only. -/
def ageCondition (ageStart ageEnd : Int) : Condition :=
  { AgeStart := ageStart, AgeEnd := ageEnd, Gender := none, Country := none, Platform := none }

/-- A condition that restricts every dimension. -/
def restrictedCondition : Condition :=
  { AgeStart := 20, AgeEnd := 30, Gender := some ["M", "F"], Country := some ["TW", "JP"],
    Platform := some ["ios"] }

/-- A store in which every step succeeds. -/
def storeOf (docs : List File) : Store :=
  { config := none, connect := none, findErr := none, decodeErr := none, docs := docs }

/-! ## `sort.Slice` as the Go library runs it

`sort.Slice(x, less)` calls `pdqsort_func` on the whole slice (Go 1.19 and
later). The routines below follow the library for slices of fewer than 50
elements; where the library leaves that part (heap sort after too many bad
pivots, pattern breaking after an unbalanced partition, the ninther and the
shifting of long slices) the result is `none`. -/

/-- Library call `data.Less(i, j)`: the comparison of the elements at two indices. -/
def lessAt (less : File → File → Bool) (data : List File) (i j : Nat) : Bool :=
  match data[i]?, data[j]? with
  | some x, some y => less x y
  | _, _ => false

/-- Library call `data.Swap(i, j)`. -/
def swapAt (data : List File) (i j : Nat) : List File :=
  match data[i]?, data[j]? with
  | some x, some y => (data.set i y).set j x
  | _, _ => data

/-- The inner loop of `insertionSort_func`:
`for j := i; j > a && data.Less(j, j-1); j-- { data.Swap(j, j-1) }`. -/
def insertionShift (less : File → File → Bool) (a : Nat) : Nat → List File → List File
  | 0, data => data
  | j + 1, data =>
    if a < j + 1 ∧ lessAt less data (j + 1) j = true then
      insertionShift less a j (swapAt data (j + 1) j)
    else data

/-- The outer loop of `insertionSort_func`, `for i := a + 1; i < b; i++`, from
the index `i` on; `n` bounds the number of rounds left. -/
def insertionRounds (less : File → File → Bool) (a b : Nat) :
    Nat → Nat → List File → List File
  | 0, _, data => data
  | n + 1, i, data =>
    if i < b then insertionRounds less a b n (i + 1) (insertionShift less a i data) else data

/-- Library routine `insertionSort_func(data, a, b)`. -/
def insertionSort_func (less : File → File → Bool) (data : List File) (a b : Nat) :
    List File :=
  insertionRounds less a b (b - a) (a + 1) data

/-- Library routine `order2_func`: the two indices in the order of their
elements, and the count of swaps. -/
def order2_func (less : File → File → Bool) (data : List File) (a b swaps : Nat) :
    Nat × Nat × Nat :=
  if lessAt less data b a = true then (b, a, swaps + 1) else (a, b, swaps)

/-- Library routine `median_func`: the index of the median of three elements. -/
def median_func (less : File → File → Bool) (data : List File) (a b c swaps : Nat) :
    Nat × Nat :=
  let (a, b, swaps) := order2_func less data a b swaps
  let (b, _, swaps) := order2_func less data b c swaps
  let (_, b, swaps) := order2_func less data a b swaps
  (b, swaps)

/-- The hint `choosePivot_func` returns with the pivot. -/
inductive SortedHint where
  | unknownHint
  | increasingHint
  | decreasingHint
  deriving DecidableEq, Repr

/-- Library routine `choosePivot_func(data, a, b)` for fewer than 50 elements. -/
def choosePivot_func (less : File → File → Bool) (data : List File) (a b : Nat) :
    Option (Nat × SortedHint) :=
  let l := b - a
  let i := a + l / 4 * 1
  let j := a + l / 4 * 2
  let k := a + l / 4 * 3
  if 50 ≤ l then none
  else
    let (j, swaps) := if 8 ≤ l then median_func less data i j k 0 else (j, 0)
    if swaps = 0 then some (j, .increasingHint)
    else if swaps = 12 then some (j, .decreasingHint)
    else some (j, .unknownHint)

/-- Library routine `reverseRange_func`, from the indices `i` and `j` on. -/
def reverseLoop : Nat → Nat → Nat → List File → List File
  | 0, _, _, data => data
  | n + 1, i, j, data => if i < j then reverseLoop n (i + 1) (j - 1) (swapAt data i j) else data

/-- Library routine `reverseRange_func(data, a, b)`. -/
def reverseRange_func (data : List File) (a b : Nat) : List File :=
  reverseLoop (b - a) a (b - 1) data

/-- The loop `for i < b && !data.Less(i, i-1) { i++ }` of
`partialInsertionSort_func`. -/
def sortedRun (less : File → File → Bool) (data : List File) (b : Nat) : Nat → Nat → Nat
  | 0, i => i
  | n + 1, i =>
    if i < b ∧ lessAt less data i (i - 1) = false then sortedRun less data b n (i + 1) else i

/-- Library routine `partialInsertionSort_func(data, a, b)` for fewer than 50
elements: `true` when the range is sorted already, no element is moved. -/
def partialInsertionSort_func (less : File → File → Bool) (data : List File) (a b : Nat) :
    Option Bool :=
  let i := sortedRun less data b (b - a) (a + 1)
  if i = b then some true
  else if b - a < 50 then some false
  else none

/-- The loop `for i <= j && data.Less(i, a) { i++ }` of `partition_func`. -/
def scanUp (less : File → File → Bool) (data : List File) (a j : Nat) : Nat → Nat → Nat
  | 0, i => i
  | n + 1, i =>
    if i ≤ j ∧ lessAt less data i a = true then scanUp less data a j n (i + 1) else i

/-- The loop `for i <= j && !data.Less(j, a) { j-- }` of `partition_func`. -/
def scanDown (less : File → File → Bool) (data : List File) (a i : Nat) : Nat → Nat
  | 0 => 0
  | j + 1 =>
    if i ≤ j + 1 ∧ lessAt less data (j + 1) a = false then scanDown less data a i j else j + 1

/-- The main loop of `partition_func`, entered with the indices `i` and `j`. -/
def partitionLoop (less : File → File → Bool) (a : Nat) :
    Nat → Nat → Nat → List File → List File × Nat
  | 0, _, j, data => (data, j)
  | n + 1, i, j, data =>
    let i := scanUp less data a j (j + 1 - i) i
    let j := scanDown less data a i j
    if j < i then (data, j)
    else partitionLoop less a n (i + 1) (j - 1) (swapAt data i j)

/-- Library routine `partition_func(data, a, b, pivot)`: the slice, the new
index of the pivot, and whether the range was partitioned already. -/
def partition_func (less : File → File → Bool) (data : List File) (a b pivot : Nat) :
    List File × Nat × Bool :=
  let data := swapAt data a pivot
  let i := scanUp less data a (b - 1) (b - 1 - a) (a + 1)
  let j := scanDown less data a i (b - 1)
  if j < i then (swapAt data j a, j, true)
  else
    let data := swapAt data i j
    let (data, j) := partitionLoop less a (b - a) (i + 1) (j - 1) data
    (swapAt data j a, j, false)

/-- The loop `for i <= j && !data.Less(a, i) { i++ }` of `partitionEqual_func`. -/
def scanUpEqual (less : File → File → Bool) (data : List File) (a j : Nat) : Nat → Nat → Nat
  | 0, i => i
  | n + 1, i =>
    if i ≤ j ∧ lessAt less data a i = false then scanUpEqual less data a j n (i + 1) else i

/-- The loop `for i <= j && data.Less(a, j) { j-- }` of `partitionEqual_func`. -/
def scanDownEqual (less : File → File → Bool) (data : List File) (a i : Nat) : Nat → Nat
  | 0 => 0
  | j + 1 =>
    if i ≤ j + 1 ∧ lessAt less data a (j + 1) = true then scanDownEqual less data a i j
    else j + 1

/-- The loop of `partitionEqual_func`, entered with the indices `i` and `j`. -/
def partitionEqualLoop (less : File → File → Bool) (a : Nat) :
    Nat → Nat → Nat → List File → List File × Nat
  | 0, i, _, data => (data, i)
  | n + 1, i, j, data =>
    let i := scanUpEqual less data a j (j + 1 - i) i
    let j := scanDownEqual less data a i j
    if j < i then (data, i)
    else partitionEqualLoop less a n (i + 1) (j - 1) (swapAt data i j)

/-- Library routine `partitionEqual_func(data, a, b, pivot)`. -/
def partitionEqual_func (less : File → File → Bool) (data : List File) (a b pivot : Nat) :
    List File × Nat :=
  partitionEqualLoop less a (b - a + 1) (a + 1) (b - 1) (swapAt data a pivot)

/-- Library routine `pdqsort_func(data, a, b, limit)`; the two flags are its
local variables `wasBalanced` and `wasPartitioned`, and `fuel` bounds the
depth of the loop and the recursion. -/
def pdqsort_func (less : File → File → Bool) :
    Nat → List File → Nat → Nat → Nat → Bool → Bool → Option (List File)
  | 0, _, _, _, _, _, _ => none
  | fuel + 1, data, a, b, limit, wasBalanced, wasPartitioned =>
    let length := b - a
    if length ≤ 12 then some (insertionSort_func less data a b)
    else if limit = 0 then none
    else if wasBalanced = false then none
    else
      match choosePivot_func less data a b with
      | none => none
      | some (pivot, hint) =>
        let data := if hint = .decreasingHint then reverseRange_func data a b else data
        let pivot := if hint = .decreasingHint then (b - 1) - (pivot - a) else pivot
        let hint := if hint = .decreasingHint then SortedHint.increasingHint else hint
        let sorted :=
          if wasBalanced = true ∧ wasPartitioned = true ∧ hint = .increasingHint then
            partialInsertionSort_func less data a b
          else some false
        match sorted with
        | none => none
        | some true => some data
        | some false =>
          if 0 < a ∧ lessAt less data (a - 1) pivot = false then
            let (data, mid) := partitionEqual_func less data a b pivot
            pdqsort_func less fuel data mid b limit wasBalanced wasPartitioned
          else
            let (data, mid, alreadyPartitioned) := partition_func less data a b pivot
            let leftLen := mid - a
            let rightLen := b - mid
            let balanceThreshold := length / 8
            if leftLen < rightLen then
              match pdqsort_func less fuel data a mid limit true true with
              | none => none
              | some data =>
                pdqsort_func less fuel data (mid + 1) b limit
                  (decide (balanceThreshold ≤ leftLen)) alreadyPartitioned
            else
              match pdqsort_func less fuel data (mid + 1) b limit true true with
              | none => none
              | some data =>
                pdqsort_func less fuel data a mid limit
                  (decide (balanceThreshold ≤ rightLen)) alreadyPartitioned

/-- Library function `bits.Len`: the number of bits of `n`; `fuel` bounds the
halvings. -/
def bitsLen : Nat → Nat → Nat
  | 0, _ => 0
  | fuel + 1, n => if n = 0 then 0 else 1 + bitsLen fuel (n / 2)

/-- Library function `sort.Slice(x, less)`. -/
def sortSlice (data : List File) (less : File → File → Bool) : Option (List File) :=
  pdqsort_func less (data.length + 1) data 0 data.length (bitsLen data.length data.length)
    true true

/-- The sorted sequence keeps the store's order among ads of equal `EndAt`:
for every instant, the ads ending then come in the same order in both. -/
def keepsStoreOrder (retrieved sorted : List File) : Prop :=
  ∀ t : Time, sorted.filter (fun ad => decide (ad.EndAt = t))
    = retrieved.filter (fun ad => decide (ad.EndAt = t))

/-- Thirteen active ads in the order the store returns them: the first twelve
end at 2, the last one ends at 1. -/
def thirteenAds : List File :=
  [testAd "ad0" 2 none, testAd "ad1" 2 none, testAd "ad2" 2 none, testAd "ad3" 2 none,
    testAd "ad4" 2 none, testAd "ad5" 2 none, testAd "ad6" 2 none, testAd "ad7" 2 none,
    testAd "ad8" 2 none, testAd "ad9" 2 none, testAd "ad10" 2 none, testAd "ad11" 2 none,
    testAd "ad12" 1 none]

/-! ## The handlers (`src/process/get.go`, `src/process/post.go`)

Of `*gin.Context` the handlers read the client address, the request header,
the URL query parameters and the JSON body, and they answer through
`c.JSON(status, body)`. A handler run is recorded as the list of its `c.JSON`
calls, in order, together with the argument of its call into the storage
package. -/

/-- Go struct `AdData` (`src/storage/mongo_func.go`, lines 27-31). -/
structure AdData where
  ClientIP : String
  Headers : List (String × List String)
  Ad : File
  deriving DecidableEq, Repr

/-- Go struct `item` (`src/process/get.go`, lines 15-18). -/
structure Item where
  Title : String
  Endat : Time
  deriving DecidableEq, Repr

/-- The `gin.H` bodies the handlers write: `error: msg`, `items: items`, and
`title: "POST successfully"`. -/
inductive Body where
  | error (msg : String)
  | items (items : List Item)
  | posted (title : String)
  deriving DecidableEq, Repr

/-- Go constant `http.StatusInternalServerError`. -/
def StatusInternalServerError : Nat := 500

/-- Go constant `http.StatusOK`. -/
def StatusOK : Nat := 200

/-- What `ProcessGet` reads from `*gin.Context`; `Query` holds the first
value of each URL query parameter that is present. -/
structure Context where
  ClientIP : String
  Header : List (String × List String)
  Query : List (String × String)
  deriving DecidableEq, Repr

/-- Library method `c.DefaultQuery(key, defaultValue)`: the value of the query
parameter when it is present, the default otherwise. -/
def DefaultQuery (c : Context) (key defaultValue : String) : String :=
  match c.Query.lookup key with
  | some value => value
  | none => defaultValue

/-- The value of a decimal digit. -/
def digitValue (ch : Char) : Option Nat :=
  if '0' ≤ ch ∧ ch ≤ '9' then some (ch.toNat - '0'.toNat) else none

/-- Library constant `maxUint64`. -/
def maxUint64 : Nat := 2 ^ 64 - 1

/-- The outcome of the library routine `ParseUint`: a syntax error, a range
error, or the number read. -/
inductive Parsed where
  | badChar
  | outOfRange
  | number (n : Nat)
  deriving DecidableEq, Repr

/-- Library routine `ParseUint` in base 10 with 64 bits, from the number `n`
read so far: the characters are taken from the left; a character that is not
a digit is a syntax error, a digit that takes the number beyond 64 bits is a
range error, and either ends the reading. -/
def parseUint : List Char → Nat → Parsed
  | [], n => .number n
  | ch :: rest, n =>
    match digitValue ch with
    | none => .badChar
    | some d =>
      if maxUint64 / 10 + 1 ≤ n then .outOfRange
      else if maxUint64 < n * 10 + d then .outOfRange
      else parseUint rest (n * 10 + d)

/-- The sign and the digits of a string: a leading `+` or `-` is the sign. -/
def splitSign : List Char → Bool × List Char
  | [] => (false, [])
  | ch :: rest => if ch = '-' then (true, rest) else if ch = '+' then (false, rest)
    else (false, ch :: rest)

/-- The number `strconv.Atoi(s)` returns next to its error, which the handler
drops: 0 on a syntax error, the largest `int` (the smallest after a minus
sign) on a range error. -/
def Atoi (s : String) : Int :=
  let (neg, digits) := splitSign s.data
  match digits with
  | [] => 0
  | _ =>
    match parseUint digits 0 with
    | .badChar => 0
    | .outOfRange => if neg then -(2 : Int) ^ 63 else (2 : Int) ^ 63 - 1
    | .number n =>
      if neg then (if 2 ^ 63 < n then -(2 : Int) ^ 63 else -(n : Int))
      else (if 2 ^ 63 ≤ n then (2 : Int) ^ 63 - 1 else (n : Int))

/-- The first result of `QueryData`: the page, or `[]File{}` next to an error. -/
def Outcome.results : Outcome → List File
  | .ok results => results
  | _ => []

/-- The second result of `QueryData`: the error, if any. -/
def Outcome.err : Outcome → Option String
  | .fail msg => some msg
  | _ => none

/-- A run of `ProcessGet`: the request handed to `QueryData` (if the call is
reached), the `c.JSON` calls in order, and whether the run panicked. -/
structure GetRun where
  query : Option QueryRequest
  writes : List (Nat × Body)
  panicked : Bool
  deriving DecidableEq, Repr

/-- Go function `ProcessGet` (`src/process/get.go`, lines 20-71). -/
def ProcessGet (s : SliceSorter) (env : Store) (now : Time) (c : Context) : GetRun :=
  let offset := Atoi (DefaultQuery c "offset" "5")
  if offset < 1 ∨ offset > 100 then
    { query := none,
      writes := [(StatusInternalServerError,
        .error "offset should be in this interval: [1, 100]")],
      panicked := false }
  else
    let offset := offset - 1
    let limit := Atoi (DefaultQuery c "limit" "5")
    if limit < 1 ∨ limit > 100 then
      { query := none,
        writes := [(StatusInternalServerError,
          .error "limit should be in this interval: [1, 100]")],
        panicked := false }
    else
      let query : QueryRequest :=
        { ClientIP := c.ClientIP, Headers := c.Header, Offset := offset, Limit := limit,
          Age := Atoi (DefaultQuery c "age" "0"), Gender := DefaultQuery c "gender" "",
          Country := DefaultQuery c "country" "", Platform := DefaultQuery c "platform" "" }
      match QueryData s env now query with
      | .panic => { query := some query, writes := [], panicked := true }
      | outcome =>
        let failure : List (Nat × Body) :=
          match outcome.err with
          | some err => [(StatusInternalServerError, .error err)]
          | none => []
        let items := outcome.results.map fun result =>
          ({ Title := result.Title, Endat := result.EndAt } : Item)
        { query := some query, writes := failure ++ [(StatusOK, .items items)],
          panicked := false }

/-- What the environment of one `StoreData` call does: the outcome of each
step (`some msg` = that step fails with this error). -/
structure InsertEnv where
  config : Option String
  connect : Option String
  insert : Option String
  deriving DecidableEq, Repr

/-- Go function `StoreData` (`src/storage/mongo_func.go`, lines 45-66): the
error it returns, `none` being nil. -/
def StoreData (env : InsertEnv) (_ad : AdData) : Option String :=
  match env.config with
  | some err => some err
  | none =>
  match env.connect with
  | some err => some err
  | none =>
  match env.insert with
  | some err => some err
  | none => none

/-- The zero instant, the instant of the zero value `time.Time{}`; instants
are counted from it. -/
def zeroTime : Time := 0

/-- What a Go `time.Time` bound from a request body holds beside its instant
in the resolution of the store, and what `==` compares as well: the
nanoseconds below that resolution and the location pointer. `loc` is `none`
for the nil pointer, which `time.Time{}` and a time written with `Z` have, and
`some off` for the location of a time written with the numeric offset `off`
(in seconds). The driver drops both when it stores the time. -/
structure TimeExtra where
  nanos : Nat
  loc : Option Int
  deriving DecidableEq, Repr

/-- The rest of the zero value `time.Time{}`: no nanoseconds, the nil location. -/
def zeroExtra : TimeExtra := { nanos := 0, loc := none }

/-- What `ProcessPost` reads from `*gin.Context`; `Bind` is the outcome of
`c.ShouldBindJSON(&ad.Ad)`: an error, or the struct the body was bound to,
with `StartExtra` and `EndExtra` the rest of its two `time.Time` fields. -/
structure PostContext where
  ClientIP : String
  Header : List (String × List String)
  Bind : Except String File
  StartExtra : TimeExtra
  EndExtra : TimeExtra

/-- A run of `ProcessPost`: the ad handed to `StoreData` (if the call is
reached) and the `c.JSON` calls in order. -/
structure PostRun where
  stored : Option AdData
  writes : List (Nat × Body)
  deriving DecidableEq, Repr

/-- Go function `ProcessPost` (`src/process/post.go`, lines 14-75). The
comparison `== (time.Time{})` of two structs holds when the instant, the
nanoseconds and the location pointer are those of the zero value. -/
def ProcessPost (env : InsertEnv) (c : PostContext) : PostRun :=
  match c.Bind with
  | .error err => { stored := none, writes := [(StatusInternalServerError, .error err)] }
  | .ok bound =>
    if bound.Title = "" then
      { stored := none, writes := [(StatusInternalServerError, .error "title is nil")] }
    else if bound.StartAt = zeroTime ∧ c.StartExtra = zeroExtra then
      { stored := none, writes := [(StatusInternalServerError, .error "start time is nil")] }
    else if bound.EndAt = zeroTime ∧ c.EndExtra = zeroExtra then
      { stored := none, writes := [(StatusInternalServerError, .error "end time is nil")] }
    else
      let conditions :=
        if (bound.Conditions.getD []).length = 0 then
          some (bound.Conditions.getD [] ++ [defaultCondition])
        else bound.Conditions
      let ad : AdData :=
        { ClientIP := c.ClientIP, Headers := c.Header,
          Ad := { bound with Conditions := conditions } }
      let failure : List (Nat × Body) :=
        match StoreData env ad with
        | some err => [(StatusInternalServerError, .error err)]
        | none => []
      { stored := some ad, writes := failure ++ [(StatusOK, .posted ad.Ad.Title)] }

/-! ## Vocabulary of the properties of pagination and handlers, and sample data -/

/-- A request `GET /api/v1/ad` with the given query parameters. -/
def getContext (query : List (String × String)) : Context :=
  { ClientIP := "", Header := [], Query := query }

/-- A create request whose body was bound to the given ad, its two times
written with `Z` and to the resolution of the store. -/
def postContext (ad : File) : PostContext :=
  { ClientIP := "", Header := [], Bind := .ok ad, StartExtra := zeroExtra,
    EndExtra := zeroExtra }

/-- The ads the filter of the request selects, as `QueryData` has them after
its call of `sort.Slice`. -/
def sortedMatches (s : SliceSorter) (docs : List File) (now : Time) (query : QueryRequest) :
    List File :=
  s.sort (find (queryFilter now query) docs) fun a b => decide (a.EndAt < b.EndAt)

/-- The Go slice expression `results[lo:hi]` for `0 ≤ lo ≤ hi ≤ len(results)`. -/
def sliceOf (results : List File) (lo hi : Int) : List File :=
  (results.take hi.toNat).drop lo.toNat

/-- The offset of a request as `ProcessGet` parses it. -/
def externalOffset (c : Context) : Int := Atoi (DefaultQuery c "offset" "5")

/-- The limit of a request as `ProcessGet` parses it. -/
def externalLimit (c : Context) : Int := Atoi (DefaultQuery c "limit" "5")

/-- The string is a decimal integer: an optional sign and then digits only,
at least one. -/
def isDecimal (s : String) : Bool :=
  (splitSign s.data).2 ≠ [] ∧ (splitSign s.data).2.all fun ch => (digitValue ch).isSome

/-- The number written by the leading digits of a string, continued from `n`. -/
def leadingValue : List Char → Nat → Nat
  | [], n => n
  | ch :: rest, n =>
    match digitValue ch with
    | some d => leadingValue rest (n * 10 + d)
    | none => n

/-- A create request that passes the checks of `ProcessPost`. -/
def validPost : File :=
  { Title := "test AD", StartAt := 1, EndAt := 2, Conditions := none }

/-- Three ads with the titles of `TestQuery_Offset`, in the order of the store,
ending at the instants 1, 2 and 3. -/
def threeAds : List File :=
  [testAd "test AD0" 1 (some [nilCondition]), testAd "test AD1" 2 (some [nilCondition]),
    testAd "test AD2" 3 (some [nilCondition])]

/-- The thirteen ads in the order `sort.Slice` leaves them. -/
def thirteenSorted : List File :=
  [testAd "ad12" 1 none, testAd "ad6" 2 none, testAd "ad2" 2 none, testAd "ad3" 2 none,
    testAd "ad4" 2 none, testAd "ad5" 2 none, testAd "ad0" 2 none, testAd "ad7" 2 none,
    testAd "ad8" 2 none, testAd "ad9" 2 none, testAd "ad10" 2 none, testAd "ad11" 2 none,
    testAd "ad1" 2 none]

/-- A store in which reading the cursor into `results` fails. -/
def decodeFailure (docs : List File) : Store :=
  { config := none, connect := none, findErr := none,
    decodeErr := some "cursor decode failed", docs := docs }

/-- The request `ProcessGet` builds once offset and limit have passed. -/
def builtQuery (c : Context) : QueryRequest :=
  { ClientIP := c.ClientIP, Headers := c.Header, Offset := externalOffset c - 1,
    Limit := externalLimit c, Age := Atoi (DefaultQuery c "age" "0"),
    Gender := DefaultQuery c "gender" "", Country := DefaultQuery c "country" "",
    Platform := DefaultQuery c "platform" "" }

/-- The run is a rejection: `QueryData` is not called and the one answer is
an error with status 500. -/
def GetRun.rejected (r : GetRun) : Prop :=
  r.query = none ∧ ∃ msg, r.writes = [(StatusInternalServerError, .error msg)]

/-! ## Vocabulary of the properties of `ProcessPost`, of the filter and of the pages -/

/-- The request that keeps only the last present dimension of `q`, in the
order age, gender, country, platform. -/
def lastDimension (q : QueryRequest) : QueryRequest :=
  if q.Platform ≠ "" then { q with Age := 0, Gender := "", Country := "" }
  else if q.Country ≠ "" then { q with Age := 0, Gender := "" }
  else if q.Gender ≠ "" then { q with Age := 0 }
  else q

/-- The number of optional dimensions present in a request. -/
def presentDimensions (q : QueryRequest) : Nat :=
  (if q.Age ≠ 0 then 1 else 0) + (if q.Gender ≠ "" then 1 else 0)
    + (if q.Country ≠ "" then 1 else 0) + (if q.Platform ≠ "" then 1 else 0)

/-- The number is a value of the Go type `int` (64 bits). -/
def isInt (x : Int) : Prop := -(2 : Int) ^ 63 ≤ x ∧ x < (2 : Int) ^ 63

/-- The item `ProcessGet` makes of a result. -/
def itemOf (result : File) : Item := { Title := result.Title, Endat := result.EndAt }

/-- A store in which every step of `StoreData` succeeds. -/
def insertOk : InsertEnv := { config := none, connect := none, insert := none }

/-- The conditions `ProcessPost` hands on: the default condition appended when
the request has none, the request's own list otherwise. -/
def conditionsOrDefault (bound : File) : Option (List Condition) :=
  if (bound.Conditions.getD []).length = 0 then
    some (bound.Conditions.getD [] ++ [defaultCondition])
  else bound.Conditions

/-- The ad `ProcessPost` hands to `StoreData` for a request bound to `bound`. -/
def adOf (c : PostContext) (bound : File) : AdData :=
  { ClientIP := c.ClientIP, Headers := c.Header,
    Ad := { bound with Conditions := conditionsOrDefault bound } }

/-- The create request of `validPost` with the zero instant as `StartAt`. -/
def zeroStartPost : File := { validPost with StartAt := zeroTime }

/-- The create request of `validPost` with the zero instant as `EndAt`. -/
def zeroEndPost : File := { validPost with EndAt := zeroTime }

/-- A create request whose body gives the start time as
`0001-01-01T00:00:00+00:00`: the zero instant, written with a numeric offset,
so that the bound `time.Time` has a location. -/
def offsetZeroStart : PostContext :=
  { ClientIP := "", Header := [], Bind := .ok zeroStartPost,
    StartExtra := { nanos := 0, loc := some 0 }, EndExtra := zeroExtra }

/-- The sorting routine `sort.Slice` as the library runs it: the result of
`sortSlice` wherever that is written out and is the reordering by `less` that
the contract of `sort.Slice` promises, and the result of insertion sort
elsewhere. -/
def librarySorter : SliceSorter where
  sort xs less :=
    match sortSlice xs less with
    | some ys =>
      if ys.Perm xs ∧ ys.Pairwise (fun a b => less b a = false) then ys
      else insertionSort less xs
    | none => insertionSort less xs
  perm := by
    intro xs less
    show (match sortSlice xs less with
      | some ys =>
        if ys.Perm xs ∧ ys.Pairwise (fun a b => less b a = false) then ys
        else insertionSort less xs
      | none => insertionSort less xs).Perm xs
    split
    · split
      · rename_i h
        exact h.1
      · exact insertionSorter.perm xs less
    · exact insertionSorter.perm xs less
  sorted := by
    intro xs key
    show (match sortSlice xs (fun a b => decide (key a < key b)) with
      | some ys =>
        if ys.Perm xs ∧ ys.Pairwise (fun a b => decide (key b < key a) = false) then ys
        else insertionSort (fun a b => decide (key a < key b)) xs
      | none => insertionSort (fun a b => decide (key a < key b)) xs).Pairwise
        fun a b => key a ≤ key b
    split
    · split
      · rename_i h
        refine h.2.imp ?_
        intro a b hab
        have : ¬ key b < key a := by simpa using hab
        omega
      · exact insertionSorter.sorted xs key
    · exact insertionSorter.sorted xs key

/-! ## Helper lemmas: the filter on a stored ad -/

theorem splitPath_endat : splitPath "endat" = ["endat"] := by decide
theorem splitPath_agestart : splitPath "conditions.agestart" = ["conditions", "agestart"] := by
  decide
theorem splitPath_ageend : splitPath "conditions.ageend" = ["conditions", "ageend"] := by decide
theorem splitPath_gender : splitPath "conditions.gender" = ["conditions", "gender"] := by decide
theorem splitPath_country : splitPath "conditions.country" = ["conditions", "country"] := by
  decide
theorem splitPath_platform : splitPath "conditions.platform" = ["conditions", "platform"] := by
  decide
theorem splitPath_Platform : splitPath "conditions.Platform" = ["conditions", "Platform"] := by
  decide

theorem pathValues_endat (ad : File) :
    pathValues ["endat"] ad.toBSON = [some (.date ad.EndAt)] := by
  simp [pathValues, File.toBSON, fieldOf, M.get]

theorem pathValues_arr_conditions (k : String) (cs : List Condition) :
    pathValues [k] (.arr (cs.map Condition.toBSON)) = cs.map fun c => fieldOf k c.toBSON := by
  induction cs with
  | nil => simp [pathValues]
  | cons c cs ih =>
    simp only [pathValues, List.map_cons, List.flatMap_cons] at ih ⊢
    rw [ih]
    simp only [Condition.toBSON, fieldOf]
    cases M.get _ k <;> simp

theorem pathValues_conditions (k : String) (ad : File) :
    pathValues ["conditions", k] ad.toBSON =
      match ad.Conditions with
      | none => [none]
      | some cs => cs.map fun c => fieldOf k c.toBSON := by
  have h1 : pathValues ["conditions", k] ad.toBSON
      = pathValues [k] (encodeConditions ad.Conditions) := by
    simp [pathValues, File.toBSON, fieldOf, M.get]
  rw [h1]
  cases h : ad.Conditions with
  | none => simp [pathValues, fieldOf, encodeConditions]
  | some cs => simp only [encodeConditions]; exact pathValues_arr_conditions k cs

theorem fieldOf_agestart (c : Condition) : fieldOf "agestart" c.toBSON = some (.int c.AgeStart) := by
  simp [fieldOf, Condition.toBSON, M.get]

theorem fieldOf_ageend (c : Condition) : fieldOf "ageend" c.toBSON = some (.int c.AgeEnd) := by
  simp [fieldOf, Condition.toBSON, M.get]

theorem fieldOf_gender (c : Condition) :
    fieldOf "gender" c.toBSON = some (encodeStrings c.Gender) := by
  simp [fieldOf, Condition.toBSON, M.get]

theorem fieldOf_country (c : Condition) :
    fieldOf "country" c.toBSON = some (encodeStrings c.Country) := by
  simp [fieldOf, Condition.toBSON, M.get]

theorem fieldOf_platform (c : Condition) :
    fieldOf "platform" c.toBSON = some (encodeStrings c.Platform) := by
  simp [fieldOf, Condition.toBSON, M.get]

theorem fieldOf_Platform (c : Condition) : fieldOf "Platform" c.toBSON = none := by
  simp [fieldOf, Condition.toBSON, M.get]

/-- The base predicate `endat: $gt now` holds exactly for ads that end after `now`. -/
theorem matchField_endat (now : Time) (ad : File) :
    matchField "endat" (.doc [("$gt", .date now)]) ad.toBSON = decide (now < ad.EndAt) := by
  simp [matchField, splitPath_endat, pathValues_endat, candidates, opMatch]

/-- An equality match with a string on a `[]string` field of the conditions. -/
theorem matchField_str_iff (key k : String) (get : Condition → Option (List String))
    (hkey : splitPath key = ["conditions", k])
    (hget : ∀ c : Condition, fieldOf k c.toBSON = some (encodeStrings (get c)))
    (g : String) (ad : File) :
    matchField key (.str g) ad.toBSON = true ↔
      ∃ c ∈ ad.conds, ∃ xs, get c = some xs ∧ g ∈ xs := by
  simp only [matchField, hkey, pathValues_conditions, File.conds]
  cases h : ad.Conditions with
  | none => simp [candidates, eqMatch]
  | some cs =>
    simp only [Option.getD_some, List.any_eq_true, List.mem_flatMap, List.mem_map]
    constructor
    · rintro ⟨v, ⟨w, ⟨c, hc, rfl⟩, hv⟩, hm⟩
      refine ⟨c, hc, ?_⟩
      rw [hget c] at hv
      cases hg : get c with
      | none => simp [hg, encodeStrings, candidates] at hv; subst hv; simp [eqMatch] at hm
      | some xs =>
        refine ⟨xs, rfl, ?_⟩
        simp only [hg, encodeStrings, candidates, List.mem_cons, List.mem_map] at hv
        rcases hv with hv | ⟨b, hb, rfl⟩
        · subst hv; simp [eqMatch] at hm
        · rcases hb with ⟨x, hx, rfl⟩
          simp [eqMatch] at hm
          subst hm; exact hx
    · rintro ⟨c, hc, xs, hg, hx⟩
      refine ⟨some (.str g), ⟨fieldOf k c.toBSON, ⟨c, hc, rfl⟩, ?_⟩, by simp [eqMatch]⟩
      rw [hget c, hg]
      simp only [encodeStrings, candidates, List.mem_cons, List.mem_map]
      exact Or.inr ⟨.str g, ⟨g, hx, rfl⟩, rfl⟩

/-- An equality match with null on a `[]string` field of the conditions. -/
theorem matchField_null_iff (key k : String) (get : Condition → Option (List String))
    (hkey : splitPath key = ["conditions", k])
    (hget : ∀ c : Condition, fieldOf k c.toBSON = some (encodeStrings (get c)))
    (ad : File) :
    matchField key .null ad.toBSON = true ↔
      ad.Conditions = none ∨ ∃ c ∈ ad.conds, get c = none := by
  simp only [matchField, hkey, pathValues_conditions, File.conds]
  cases h : ad.Conditions with
  | none => simp [candidates, eqMatch]
  | some cs =>
    simp only [Option.getD_some, List.any_eq_true, List.mem_flatMap, List.mem_map]
    constructor
    · rintro ⟨v, ⟨w, ⟨c, hc, rfl⟩, hv⟩, hm⟩
      refine Or.inr ⟨c, hc, ?_⟩
      rw [hget c] at hv
      cases hg : get c with
      | none => rfl
      | some xs =>
        simp only [hg, encodeStrings, candidates, List.mem_cons, List.mem_map] at hv
        rcases hv with hv | ⟨b, hb, rfl⟩
        · subst hv; simp [eqMatch] at hm
        · rcases hb with ⟨x, hx, rfl⟩
          simp [eqMatch] at hm
    · rintro (h0 | ⟨c, hc, hg⟩)
      · simp at h0
      · refine ⟨some .null, ⟨fieldOf k c.toBSON, ⟨c, hc, rfl⟩, ?_⟩, by simp [eqMatch]⟩
        rw [hget c, hg]
        simp [encodeStrings, candidates]

/-- An equality match with null on a field no condition has. -/
theorem matchField_null_missing_iff (key k : String)
    (hkey : splitPath key = ["conditions", k])
    (hget : ∀ c : Condition, fieldOf k c.toBSON = none) (ad : File) :
    matchField key .null ad.toBSON = true ↔ ad.Conditions = none ∨ ad.conds ≠ [] := by
  simp only [matchField, hkey, pathValues_conditions, File.conds]
  cases h : ad.Conditions with
  | none => simp [candidates, eqMatch]
  | some cs =>
    cases cs with
    | nil => simp
    | cons c cs => simp [hget, candidates, eqMatch]

/-- A comparison operator on an integer field of the conditions. -/
theorem matchField_int_op_iff (key k op : String) (get : Condition → Int)
    (hkey : splitPath key = ["conditions", k])
    (hget : ∀ c : Condition, fieldOf k c.toBSON = some (.int (get c)))
    (a : Int) (ad : File) :
    matchField key (.doc [(op, .int a)]) ad.toBSON = true ↔
      ∃ c ∈ ad.conds, opMatch op (.int a) (some (.int (get c))) = true := by
  simp only [matchField, hkey, pathValues_conditions, File.conds]
  cases h : ad.Conditions with
  | none => simp [candidates, opMatch]
  | some cs =>
    simp only [Option.getD_some, List.all_cons, List.all_nil, Bool.and_true, List.any_eq_true,
      List.mem_flatMap, List.mem_map]
    constructor
    · rintro ⟨v, ⟨w, ⟨c, hc, rfl⟩, hv⟩, hm⟩
      rw [hget c] at hv
      simp only [candidates, List.mem_singleton] at hv
      subst hv
      exact ⟨c, hc, hm⟩
    · rintro ⟨c, hc, hm⟩
      refine ⟨some (.int (get c)), ⟨fieldOf k c.toBSON, ⟨c, hc, rfl⟩, ?_⟩, hm⟩
      rw [hget c]
      simp [candidates]

/-- An equality match with a number on an integer field of the conditions. -/
theorem matchField_int_eq_iff (key k : String) (get : Condition → Int)
    (hkey : splitPath key = ["conditions", k])
    (hget : ∀ c : Condition, fieldOf k c.toBSON = some (.int (get c)))
    (n : Int) (ad : File) :
    matchField key (.int n) ad.toBSON = true ↔ ∃ c ∈ ad.conds, get c = n := by
  simp only [matchField, hkey, pathValues_conditions, File.conds]
  cases h : ad.Conditions with
  | none => simp [candidates, eqMatch]
  | some cs =>
    simp only [Option.getD_some, List.any_eq_true, List.mem_flatMap, List.mem_map]
    constructor
    · rintro ⟨v, ⟨w, ⟨c, hc, rfl⟩, hv⟩, hm⟩
      rw [hget c] at hv
      simp only [candidates, List.mem_singleton] at hv
      subst hv
      exact ⟨c, hc, by simpa [eqMatch] using hm⟩
    · rintro ⟨c, hc, hm⟩
      refine ⟨some (.int (get c)), ⟨fieldOf k c.toBSON, ⟨c, hc, rfl⟩, ?_⟩, by simp [eqMatch, hm]⟩
      rw [hget c]
      simp [candidates]

/-! ## Helper lemmas: the filter `QueryData` builds -/

/-- With no optional dimension the filter is the base predicate alone. -/
theorem queryFilter_none (now : Time) (q : QueryRequest)
    (hA : q.Age = 0) (hG : q.Gender = "") (hC : q.Country = "") (hP : q.Platform = "") :
    queryFilter now q = [("endat", .doc [("$gt", .date now)])] := by
  simp [queryFilter, M.set, hA, hG, hC, hP]

theorem queryFilter_age (now : Time) (q : QueryRequest)
    (hA : q.Age ≠ 0) (hG : q.Gender = "") (hC : q.Country = "") (hP : q.Platform = "") :
    queryFilter now q = [("endat", .doc [("$gt", .date now)]), ("$or", ageOr q.Age)] := by
  simp [queryFilter, M.set, hA, hG, hC, hP]

theorem queryFilter_gender (now : Time) (q : QueryRequest)
    (hG : q.Gender ≠ "") (hC : q.Country = "") (hP : q.Platform = "") :
    queryFilter now q = [("endat", .doc [("$gt", .date now)]), ("$or", genderOr q.Gender)] := by
  by_cases hA : q.Age = 0 <;> simp [queryFilter, M.set, hA, hG, hC, hP]

theorem queryFilter_country (now : Time) (q : QueryRequest)
    (hC : q.Country ≠ "") (hP : q.Platform = "") :
    queryFilter now q = [("endat", .doc [("$gt", .date now)]), ("$or", countryOr q.Country)] := by
  by_cases hA : q.Age = 0 <;> by_cases hG : q.Gender = "" <;>
    simp [queryFilter, M.set, hA, hG, hC, hP]

theorem queryFilter_platform (now : Time) (q : QueryRequest) (hP : q.Platform ≠ "") :
    queryFilter now q =
      [("endat", .doc [("$gt", .date now)]), ("$or", platformOr q.Platform)] := by
  by_cases hA : q.Age = 0 <;> by_cases hG : q.Gender = "" <;> by_cases hC : q.Country = "" <;>
    simp [queryFilter, M.set, hA, hG, hC, hP]

/-- The base predicate is part of every filter `QueryData` builds. -/
theorem satisfiesFilter_active (now : Time) (q : QueryRequest) (ad : File)
    (h : satisfiesFilter now q ad = true) : now < ad.EndAt := by
  have hform : ∃ rest, queryFilter now q = ("endat", .doc [("$gt", .date now)]) :: rest := by
    by_cases hA : q.Age = 0 <;> by_cases hG : q.Gender = "" <;>
      by_cases hC : q.Country = "" <;> by_cases hP : q.Platform = "" <;>
      simp [queryFilter, M.set, hA, hG, hC, hP]
  obtain ⟨rest, hrest⟩ := hform
  unfold satisfiesFilter at h
  rw [hrest] at h
  simp only [BSON.selects, selectsAll, selectsEntry, Bool.and_eq_true] at h
  have h1 := h.1
  simp [matchField_endat] at h1
  exact h1

/-! ## Helper lemmas: `find`, pagination, `QueryData` -/

theorem mem_find (filter : M) (docs : List File) (ad : File) :
    ad ∈ find filter docs ↔ ad ∈ docs ∧ BSON.selects (.doc filter) ad.toBSON = true := by
  simp [find, List.mem_filter]

/-- A page is a sublist of the sorted results. -/
theorem paginate_ok_sublist (results : List File) (offset limit : Int) (page : List File)
    (h : paginate results offset limit = .ok page) : page.Sublist results := by
  unfold paginate at h
  simp only at h
  split at h
  · cases h
  · split at h
    · split at h
      · cases h; exact List.drop_sublist _ _
      · cases h
    · split at h
      · cases h
        exact (List.drop_sublist _ _).trans (List.take_sublist _ _)
      · cases h

/-- A successful `QueryData` returns a sublist of a sorted permutation of the
ads the filter selects, or nothing at all. -/
theorem QueryData_ok (s : SliceSorter) (env : Store) (now : Time) (q : QueryRequest)
    (page : List File) (h : QueryData s env now q = .ok page) :
    page.Sublist (s.sort (find (queryFilter now q) env.docs)
      fun a b => decide (a.EndAt < b.EndAt)) := by
  unfold QueryData at h
  split at h
  · cases h
  · split at h
    · cases h
    · split at h
      · cases h
      · split at h
        · cases h; exact List.nil_sublist _
        · exact paginate_ok_sublist _ _ _ _ h

/-! ## Helper lemmas: the filter of each dimension on a stored ad -/

/-- The filter of a request whose last present dimension is the gender. -/
theorem satisfiesFilter_gender_iff (now : Time) (q : QueryRequest) (ad : File)
    (hG : q.Gender ≠ "") (hC : q.Country = "") (hP : q.Platform = "") :
    satisfiesFilter now q ad = true ↔
      now < ad.EndAt ∧
        ((∃ c ∈ ad.conds, ∃ xs, c.Gender = some xs ∧ q.Gender ∈ xs) ∨
          (ad.Conditions = none ∨ ∃ c ∈ ad.conds, c.Gender = none)) := by
  unfold satisfiesFilter
  rw [queryFilter_gender now q hG hC hP]
  simp only [BSON.selects, selectsAll, selectsEntry, genderOr, selectsSome, Bool.and_true,
    Bool.or_false, Bool.and_eq_true, Bool.or_eq_true, matchField_endat, decide_eq_true_eq,
    reduceCtorEq, String.reduceEq, or_self, if_false, if_true,
    matchField_str_iff "conditions.gender" "gender" Condition.Gender splitPath_gender
      fieldOf_gender,
    matchField_null_iff "conditions.gender" "gender" Condition.Gender splitPath_gender
      fieldOf_gender]

/-- The filter of a request whose last present dimension is the country. -/
theorem satisfiesFilter_country_iff (now : Time) (q : QueryRequest) (ad : File)
    (hC : q.Country ≠ "") (hP : q.Platform = "") :
    satisfiesFilter now q ad = true ↔
      now < ad.EndAt ∧
        ((∃ c ∈ ad.conds, ∃ xs, c.Country = some xs ∧ q.Country ∈ xs) ∨
          (ad.Conditions = none ∨ ∃ c ∈ ad.conds, c.Country = none)) := by
  unfold satisfiesFilter
  rw [queryFilter_country now q hC hP]
  simp only [BSON.selects, selectsAll, selectsEntry, countryOr, selectsSome, Bool.and_true,
    Bool.or_false, Bool.and_eq_true, Bool.or_eq_true, matchField_endat, decide_eq_true_eq,
    reduceCtorEq, String.reduceEq, or_self, if_false, if_true,
    matchField_str_iff "conditions.country" "country" Condition.Country splitPath_country
      fieldOf_country,
    matchField_null_iff "conditions.country" "country" Condition.Country splitPath_country
      fieldOf_country]

/-- The filter of a request in which the platform is present: its second
clause asks for the field `Platform`, which no stored condition has. -/
theorem satisfiesFilter_platform_iff (now : Time) (q : QueryRequest) (ad : File)
    (hP : q.Platform ≠ "") :
    satisfiesFilter now q ad = true ↔
      now < ad.EndAt ∧
        ((∃ c ∈ ad.conds, ∃ xs, c.Platform = some xs ∧ q.Platform ∈ xs) ∨
          (ad.Conditions = none ∨ ad.conds ≠ [])) := by
  unfold satisfiesFilter
  rw [queryFilter_platform now q hP]
  simp only [BSON.selects, selectsAll, selectsEntry, platformOr, selectsSome, Bool.and_true,
    Bool.or_false, Bool.and_eq_true, Bool.or_eq_true, matchField_endat, decide_eq_true_eq,
    reduceCtorEq, String.reduceEq, or_self, if_false, if_true,
    matchField_str_iff "conditions.platform" "platform" Condition.Platform splitPath_platform
      fieldOf_platform,
    matchField_null_missing_iff "conditions.Platform" "Platform" splitPath_Platform
      fieldOf_Platform]

/-- The age clause on its own: the two bounds, and the two zeros, are each
looked for in any condition of the ad. -/
theorem satisfiesClause_age_iff (a : Int) (ad : File) :
    satisfiesClause (ageOr a) ad = true ↔
      ((∃ c ∈ ad.conds, c.AgeStart ≤ a) ∧ (∃ c ∈ ad.conds, a ≤ c.AgeEnd)) ∨
        ((∃ c ∈ ad.conds, c.AgeStart = 0) ∧ (∃ c ∈ ad.conds, c.AgeEnd = 0)) := by
  unfold satisfiesClause
  simp only [BSON.selects, selectsAll, selectsEntry, ageOr, selectsSome, selectsEvery,
    Bool.and_true, Bool.or_false, Bool.and_eq_true, Bool.or_eq_true,
    reduceCtorEq, String.reduceEq, or_self, or_false, false_or, if_false, if_true,
    matchField_int_op_iff "conditions.agestart" "agestart" "$lte" Condition.AgeStart
      splitPath_agestart fieldOf_agestart,
    matchField_int_op_iff "conditions.ageend" "ageend" "$gte" Condition.AgeEnd
      splitPath_ageend fieldOf_ageend,
    matchField_int_eq_iff "conditions.agestart" "agestart" Condition.AgeStart
      splitPath_agestart fieldOf_agestart,
    matchField_int_eq_iff "conditions.ageend" "ageend" Condition.AgeEnd
      splitPath_ageend fieldOf_ageend,
    opMatch, decide_eq_true_eq]

/-- The filter of an age-only request. -/
theorem satisfiesFilter_age_iff (now : Time) (q : QueryRequest) (ad : File)
    (hA : q.Age ≠ 0) (hG : q.Gender = "") (hC : q.Country = "") (hP : q.Platform = "") :
    satisfiesFilter now q ad = true ↔
      now < ad.EndAt ∧
        (((∃ c ∈ ad.conds, c.AgeStart ≤ q.Age) ∧ (∃ c ∈ ad.conds, q.Age ≤ c.AgeEnd)) ∨
          ((∃ c ∈ ad.conds, c.AgeStart = 0) ∧ (∃ c ∈ ad.conds, c.AgeEnd = 0))) := by
  rw [← satisfiesClause_age_iff]
  unfold satisfiesFilter satisfiesClause
  rw [queryFilter_age now q hA hG hC hP]
  simp only [BSON.selects, selectsAll, Bool.and_true, Bool.and_eq_true]
  rw [show selectsEntry "endat" (.doc [("$gt", .date now)]) ad.toBSON
      = decide (now < ad.EndAt) by
    simp only [selectsEntry, matchField_endat, String.reduceEq, or_self, if_false]]
  simp only [decide_eq_true_eq]

/-! ## Claims -/

/-- C1: every ad that `QueryData` returns ends strictly after `now`, for every
store content, time and request; an ad with `EndAt ≤ now` is never returned. -/
theorem C1_QueryData_returns_only_active (s : SliceSorter) (env : Store) (now : Time)
    (q : QueryRequest) (page : List File) (h : QueryData s env now q = .ok page) :
    (∀ ad ∈ page, now < ad.EndAt) ∧ (∀ ad : File, ad.EndAt ≤ now → ad ∉ page) := by
  have hsub := QueryData_ok s env now q page h
  have hall : ∀ ad ∈ page, now < ad.EndAt := by
    intro ad had
    have h1 := (s.perm _ _).subset (hsub.subset had)
    have h2 := ((mem_find _ _ _).mp h1).2
    exact satisfiesFilter_active now q ad h2
  refine ⟨hall, ?_⟩
  intro ad hle hmem
  exact absurd (hall ad hmem) (not_lt.mpr hle)

/-- C1, at a store holding an expired and an active ad. -/
theorem C1_QueryData_returns_only_active_witness :
    QueryData insertionSorter
        (storeOf [testAd "old" 3 (some [nilCondition]), testAd "new" 9 (some [nilCondition])])
        5 (pageQuery 0 5)
      = .ok [testAd "new" 9 (some [nilCondition])] ∧
    ((∀ ad ∈ [testAd "new" 9 (some [nilCondition])], (5 : Time) < ad.EndAt) ∧
      (∀ ad : File, ad.EndAt ≤ 5 → ad ∉ [testAd "new" 9 (some [nilCondition])])) :=
  ⟨by decide,
    C1_QueryData_returns_only_active insertionSorter
      (storeOf [testAd "old" 3 (some [nilCondition]), testAd "new" 9 (some [nilCondition])])
      5 (pageQuery 0 5) [testAd "new" 9 (some [nilCondition])] (by decide)⟩

/-- C2: with age 25 and gender M both present, the filter `QueryData` builds
holds the gender clause only; an active ad aimed at ages 30 to 40 and open to
every gender satisfies it although it fails the age clause, so the filter is
not the conjunction of the clauses of the present dimensions. -/
theorem C2_age_clause_overwritten_by_gender :
    queryFilter 0 (dimQuery 25 "M" "" "")
        = [("endat", .doc [("$gt", .date 0)]), ("$or", genderOr "M")] ∧
      satisfiesFilter 0 (dimQuery 25 "M" "" "")
        (testAd "test AD" 1 (some [ageCondition 30 40])) = true ∧
      satisfiesClause (genderOr "M") (testAd "test AD" 1 (some [ageCondition 30 40])) = true ∧
      satisfiesClause (ageOr 25) (testAd "test AD" 1 (some [ageCondition 30 40])) = false := by
  refine ⟨rfl, ?_, ?_, ?_⟩ <;> decide

/-- C3: an active ad whose only condition has the platform set `["ios"]`
satisfies the filter of the platform-only request for `MacOS`, although no
condition of it lists `MacOS` or leaves the platform set absent. -/
theorem C3_platform_clause_selects_other_platform :
    satisfiesFilter 0 (dimQuery 0 "" "" "MacOS")
        (testAd "test AD" 1 (some [{ nilCondition with Platform := some ["ios"] }])) = true ∧
      ¬ ∃ c ∈ (testAd "test AD" 1 (some [{ nilCondition with Platform := some ["ios"] }])).conds,
        (∃ xs, c.Platform = some xs ∧ "MacOS" ∈ xs) ∨ c.Platform = none := by
  refine ⟨by decide, ?_⟩
  simp [File.conds, testAd, nilCondition]

/-- C4: an active ad with the two conditions ages 10 to 15 and ages 40 to 50
satisfies the filter of the age-only request for age 30, although no single
condition of it contains 30 or is the pair of zeros. -/
theorem C4_age_bounds_taken_from_different_conditions :
    satisfiesFilter 0 (dimQuery 30 "" "" "")
        (testAd "test AD" 1 (some [ageCondition 10 15, ageCondition 40 50])) = true ∧
      ¬ ∃ c ∈ (testAd "test AD" 1 (some [ageCondition 10 15, ageCondition 40 50])).conds,
        (c.AgeStart ≤ 30 ∧ 30 ≤ c.AgeEnd) ∨ (c.AgeStart = 0 ∧ c.AgeEnd = 0) := by
  refine ⟨by decide, ?_⟩
  simp [File.conds, testAd, ageCondition]

/-- C5: an active ad that has a condition with `AgeStart = 0` and `AgeEnd = 0`
satisfies the filter of every age-only request. -/
theorem C5_age_sentinel_matches_any_age (now : Time) (q : QueryRequest) (ad : File)
    (c : Condition) (hA : q.Age ≠ 0) (hG : q.Gender = "") (hC : q.Country = "")
    (hP : q.Platform = "") (hact : now < ad.EndAt) (hc : c ∈ ad.conds)
    (hs : c.AgeStart = 0) (he : c.AgeEnd = 0) :
    satisfiesFilter now q ad = true :=
  (satisfiesFilter_age_iff now q ad hA hG hC hP).mpr
    ⟨hact, Or.inr ⟨⟨c, hc, hs⟩, ⟨c, hc, he⟩⟩⟩

/-- C5, at the ad of `TestQueryData_Age_NoLimitInDB` and age 25. -/
theorem C5_age_sentinel_matches_any_age_witness :
    nilCondition ∈ (testAd "test AD" 1 (some [nilCondition])).conds ∧
      satisfiesFilter 0 (dimQuery 25 "" "" "") (testAd "test AD" 1 (some [nilCondition])) = true :=
  ⟨by decide,
    C5_age_sentinel_matches_any_age 0 (dimQuery 25 "" "" "")
      (testAd "test AD" 1 (some [nilCondition])) nilCondition (by decide) rfl rfl rfl
      (by decide) (by decide) rfl rfl⟩

/-- C6: an active ad whose only condition is the default condition of
`ProcessPost`, with the empty gender set `[]string{}`, does not satisfy the
filter of the gender-only request for `M`. -/
theorem C6_empty_gender_set_not_selected :
    defaultCondition.Gender = some [] ∧
      satisfiesFilter 0 (dimQuery 0 "M" "" "")
        (testAd "test AD" 1 (some [defaultCondition])) = false := by
  refine ⟨rfl, by decide⟩

/-- C7, as stated, fails at an active ad whose `Conditions` slice is nil: it
satisfies the filter of the gender-only request for `M` and has no condition. -/
theorem C7_gender_counterexample :
    satisfiesFilter 0 (dimQuery 0 "M" "" "") (testAd "test AD" 1 none) = true ∧
      ¬ ∃ c ∈ (testAd "test AD" 1 none).conds,
        (∃ xs, c.Gender = some xs ∧ "M" ∈ xs) ∨ c.Gender = none := by
  refine ⟨by decide, ?_⟩
  simp [File.conds, testAd]

/-- C7, amended: an active ad satisfies the filter of a gender-only request
exactly when its `Conditions` slice is nil, or some condition has the gender
in its gender set, or some condition has a nil gender set. -/
theorem C7_gender_filter_iff (now : Time) (q : QueryRequest) (ad : File)
    (_hA : q.Age = 0) (hG : q.Gender ≠ "") (hC : q.Country = "") (hP : q.Platform = "")
    (hact : now < ad.EndAt) :
    satisfiesFilter now q ad = true ↔
      (ad.Conditions = none ∨
        ∃ c ∈ ad.conds, (∃ xs, c.Gender = some xs ∧ q.Gender ∈ xs) ∨ c.Gender = none) := by
  rw [satisfiesFilter_gender_iff now q ad hG hC hP]
  constructor
  · rintro ⟨_, ⟨c, hc, h⟩ | h0 | ⟨c, hc, h⟩⟩
    · exact Or.inr ⟨c, hc, Or.inl h⟩
    · exact Or.inl h0
    · exact Or.inr ⟨c, hc, Or.inr h⟩
  · rintro (h0 | ⟨c, hc, h | h⟩)
    · exact ⟨hact, Or.inr (Or.inl h0)⟩
    · exact ⟨hact, Or.inl ⟨c, hc, h⟩⟩
    · exact ⟨hact, Or.inr (Or.inr ⟨c, hc, h⟩)⟩

/-- C7, amended, at the ad of `TestQueryData_Gender_ConditionInTestData`, whose
only condition has the gender set `["M"]`: returned for `M`, not for `F`. -/
theorem C7_gender_filter_iff_witness :
    (satisfiesFilter 0 (dimQuery 0 "M" "" "")
        (testAd "test AD" 1 (some [{ nilCondition with Gender := some ["M"] }])) = true ↔
      ((testAd "test AD" 1 (some [{ nilCondition with Gender := some ["M"] }])).Conditions = none ∨
        ∃ c ∈ (testAd "test AD" 1 (some [{ nilCondition with Gender := some ["M"] }])).conds,
          (∃ xs, c.Gender = some xs ∧ (dimQuery 0 "M" "" "").Gender ∈ xs) ∨ c.Gender = none)) ∧
      satisfiesFilter 0 (dimQuery 0 "M" "" "")
        (testAd "test AD" 1 (some [{ nilCondition with Gender := some ["M"] }])) = true ∧
      satisfiesFilter 0 (dimQuery 0 "F" "" "")
        (testAd "test AD" 1 (some [{ nilCondition with Gender := some ["M"] }])) = false :=
  ⟨C7_gender_filter_iff 0 (dimQuery 0 "M" "" "")
      (testAd "test AD" 1 (some [{ nilCondition with Gender := some ["M"] }]))
      rfl (by decide) rfl rfl (by decide),
    by decide, by decide⟩

/-- C8, as stated, fails at an active ad whose `Conditions` slice is nil: it
satisfies the filter of the country-only request for `TW` and has no condition. -/
theorem C8_country_counterexample :
    satisfiesFilter 0 (dimQuery 0 "" "TW" "") (testAd "test AD" 1 none) = true ∧
      ¬ ∃ c ∈ (testAd "test AD" 1 none).conds,
        (∃ xs, c.Country = some xs ∧ "TW" ∈ xs) ∨ c.Country = none := by
  refine ⟨by decide, ?_⟩
  simp [File.conds, testAd]

/-- C8, amended: an active ad satisfies the filter of a country-only request
exactly when its `Conditions` slice is nil, or some condition has the country
in its country set, or some condition has a nil country set. -/
theorem C8_country_filter_iff (now : Time) (q : QueryRequest) (ad : File)
    (_hA : q.Age = 0) (_hG : q.Gender = "") (hC : q.Country ≠ "") (hP : q.Platform = "")
    (hact : now < ad.EndAt) :
    satisfiesFilter now q ad = true ↔
      (ad.Conditions = none ∨
        ∃ c ∈ ad.conds, (∃ xs, c.Country = some xs ∧ q.Country ∈ xs) ∨ c.Country = none) := by
  rw [satisfiesFilter_country_iff now q ad hC hP]
  constructor
  · rintro ⟨_, ⟨c, hc, h⟩ | h0 | ⟨c, hc, h⟩⟩
    · exact Or.inr ⟨c, hc, Or.inl h⟩
    · exact Or.inl h0
    · exact Or.inr ⟨c, hc, Or.inr h⟩
  · rintro (h0 | ⟨c, hc, h | h⟩)
    · exact ⟨hact, Or.inr (Or.inl h0)⟩
    · exact ⟨hact, Or.inl ⟨c, hc, h⟩⟩
    · exact ⟨hact, Or.inr (Or.inr ⟨c, hc, h⟩)⟩

/-- C8, amended, at the ad of `TestQueryData_Country_ConditionInTestData`, whose
only condition has the country set `["TW", "JP"]`: returned for `TW`, not for
`USA`. -/
theorem C8_country_filter_iff_witness :
    (satisfiesFilter 0 (dimQuery 0 "" "TW" "")
        (testAd "test AD" 1 (some [{ nilCondition with Country := some ["TW", "JP"] }])) = true ↔
      ((testAd "test AD" 1
          (some [{ nilCondition with Country := some ["TW", "JP"] }])).Conditions = none ∨
        ∃ c ∈ (testAd "test AD" 1
            (some [{ nilCondition with Country := some ["TW", "JP"] }])).conds,
          (∃ xs, c.Country = some xs ∧ (dimQuery 0 "" "TW" "").Country ∈ xs) ∨
            c.Country = none)) ∧
      satisfiesFilter 0 (dimQuery 0 "" "TW" "")
        (testAd "test AD" 1 (some [{ nilCondition with Country := some ["TW", "JP"] }])) = true ∧
      satisfiesFilter 0 (dimQuery 0 "" "USA" "")
        (testAd "test AD" 1 (some [{ nilCondition with Country := some ["TW", "JP"] }])) = false :=
  ⟨C8_country_filter_iff 0 (dimQuery 0 "" "TW" "")
      (testAd "test AD" 1 (some [{ nilCondition with Country := some ["TW", "JP"] }]))
      rfl rfl (by decide) rfl (by decide),
    by decide, by decide⟩

/-- C9: for a request without any optional dimension the filter `QueryData`
builds is the entry `endat > now` alone, and every active ad satisfies it
whatever its conditions are. -/
theorem C9_no_dimension_filter_is_base_predicate (now : Time) (q : QueryRequest)
    (hA : q.Age = 0) (hG : q.Gender = "") (hC : q.Country = "") (hP : q.Platform = "") :
    queryFilter now q = [("endat", .doc [("$gt", .date now)])] ∧
      ∀ ad : File, now < ad.EndAt → satisfiesFilter now q ad = true := by
  refine ⟨queryFilter_none now q hA hG hC hP, ?_⟩
  intro ad hact
  unfold satisfiesFilter
  rw [queryFilter_none now q hA hG hC hP]
  simp only [BSON.selects, selectsAll, selectsEntry, matchField_endat, String.reduceEq, or_self,
    if_false, Bool.and_true, decide_eq_true_eq]
  exact hact

/-- C9, at the request of the tests and an ad restricted to ages 20 to 30,
genders M and F, countries TW and JP and platform ios. -/
theorem C9_no_dimension_filter_is_base_predicate_witness :
    (dimQuery 0 "" "" "").Age = 0 ∧
      (queryFilter 0 (dimQuery 0 "" "" "") = [("endat", .doc [("$gt", .date 0)])] ∧
        ∀ ad : File, 0 < ad.EndAt → satisfiesFilter 0 (dimQuery 0 "" "" "") ad = true) ∧
      satisfiesFilter 0 (dimQuery 0 "" "" "")
        (testAd "test AD" 1 (some [restrictedCondition])) = true :=
  ⟨rfl, C9_no_dimension_filter_is_base_predicate 0 (dimQuery 0 "" "" "") rfl rfl rfl rfl,
    (C9_no_dimension_filter_is_base_predicate 0 (dimQuery 0 "" "" "") rfl rfl rfl rfl).2 _
      (by decide)⟩

/-- C10: whenever `QueryData` succeeds, the returned ads are in non-decreasing
order of `EndAt`. -/
theorem C10_page_sorted_by_endAt (s : SliceSorter) (env : Store) (now : Time)
    (q : QueryRequest) (page : List File) (h : QueryData s env now q = .ok page) :
    page.Pairwise fun a b => a.EndAt ≤ b.EndAt :=
  (s.sorted _ File.EndAt).sublist (QueryData_ok s env now q page h)

/-- C10, at the three ads of `TestQuery_Sort`, which end in 3, 2 and 1 days and
come back, for offset 0 and limit 3, in the order 1 day, 2 days, 3 days. -/
theorem C10_page_sorted_by_endAt_witness :
    QueryData insertionSorter
        (storeOf [testAd "test AD0" 3 (some [nilCondition]),
          testAd "test AD1" 2 (some [nilCondition]), testAd "test AD2" 1 (some [nilCondition])])
        0 (pageQuery 0 3)
      = .ok [testAd "test AD2" 1 (some [nilCondition]),
          testAd "test AD1" 2 (some [nilCondition]), testAd "test AD0" 3 (some [nilCondition])] ∧
    [testAd "test AD2" 1 (some [nilCondition]), testAd "test AD1" 2 (some [nilCondition]),
      testAd "test AD0" 3 (some [nilCondition])].Pairwise (fun a b => a.EndAt ≤ b.EndAt) :=
  ⟨by decide,
    C10_page_sorted_by_endAt insertionSorter
      (storeOf [testAd "test AD0" 3 (some [nilCondition]),
        testAd "test AD1" 2 (some [nilCondition]), testAd "test AD2" 1 (some [nilCondition])])
      0 (pageQuery 0 3)
      [testAd "test AD2" 1 (some [nilCondition]), testAd "test AD1" 2 (some [nilCondition]),
        testAd "test AD0" 3 (some [nilCondition])] (by decide)⟩

/-! ## Helper lemmas: the insertion sort of the library -/

theorem lessAt_cons_succ (less : File → File → Bool) (z : File) (l : List File) (i j : Nat) :
    lessAt less (z :: l) (i + 1) (j + 1) = lessAt less l i j := by
  simp [lessAt]

theorem swapAt_cons_succ (z : File) (l : List File) (i j : Nat) :
    swapAt (z :: l) (i + 1) (j + 1) = z :: swapAt l i j := by
  simp only [swapAt, List.getElem?_cons_succ]
  cases l[i]? <;> cases l[j]? <;> simp

/-- A swap of two neighbours of different keys leaves the ads of each key in
their order. -/
theorem swapAt_filter (key : File → Int) (p : File → Bool)
    (hp : ∀ a b, p a = true → p b = true → key a = key b) (j : Nat) (data : List File)
    (h : lessAt (fun a b => decide (key a < key b)) data (j + 1) j = true) :
    (swapAt data (j + 1) j).filter p = data.filter p := by
  induction j generalizing data with
  | zero =>
    match data with
    | [] => simp [lessAt] at h
    | [_] => simp [lessAt] at h
    | x :: y :: rest =>
      have hlt : key y < key x := by simpa [lessAt] using h
      have hne : ¬ (p x = true ∧ p y = true) := fun hxy =>
        absurd (hp x y hxy.1 hxy.2) (ne_of_gt hlt)
      have hswap : swapAt (x :: y :: rest) (0 + 1) 0 = y :: x :: rest := by
        simp [swapAt]
      rw [hswap]
      cases hx : p x <;> cases hy : p y <;> simp_all [List.filter_cons]
  | succ j ih =>
    match data with
    | [] => simp [lessAt] at h
    | z :: l =>
      rw [lessAt_cons_succ] at h
      rw [swapAt_cons_succ, List.filter_cons, List.filter_cons, ih l h]

theorem insertionShift_filter (key : File → Int) (p : File → Bool)
    (hp : ∀ a b, p a = true → p b = true → key a = key b) (a j : Nat) (data : List File) :
    (insertionShift (fun a b => decide (key a < key b)) a j data).filter p = data.filter p := by
  induction j generalizing data with
  | zero => rfl
  | succ j ih =>
    unfold insertionShift
    split
    · rename_i h
      rw [ih, swapAt_filter key p hp j data h.2]
    · rfl

theorem insertionRounds_filter (key : File → Int) (p : File → Bool)
    (hp : ∀ a b, p a = true → p b = true → key a = key b) (a b n i : Nat) (data : List File) :
    (insertionRounds (fun a b => decide (key a < key b)) a b n i data).filter p
      = data.filter p := by
  induction n generalizing i data with
  | zero => rfl
  | succ n ih =>
    unfold insertionRounds
    split
    · rw [ih, insertionShift_filter key p hp]
    · rfl

/-- The insertion sort of the library keeps the store's order among ads of
equal `EndAt`. -/
theorem insertionSort_func_keepsStoreOrder (data : List File) (a b : Nat) :
    keepsStoreOrder data
      (insertionSort_func (fun x y => decide (x.EndAt < y.EndAt)) data a b) := by
  intro t
  unfold insertionSort_func
  apply insertionRounds_filter File.EndAt
  intro x y hx hy
  simp only [decide_eq_true_eq] at hx hy
  rw [hx, hy]

/-! ## Helper lemmas: 64-bit addition and the pagination step -/

theorem addInt64_eq (a b : Int) (hlo : -(2 : Int) ^ 63 ≤ a + b) (hhi : a + b < (2 : Int) ^ 63) :
    addInt64 a b = a + b := by
  unfold addInt64
  norm_num at hlo hhi ⊢
  omega

theorem paginate_fail_iff (results : List File) (offset limit : Int) (msg : String) :
    paginate results offset limit = .fail msg ↔
      (results.length : Int) < offset ∧ msg = "offset is out of index in the query results" := by
  unfold paginate
  simp only
  split
  · rename_i h
    constructor
    · intro hm
      injection hm with hm
      exact ⟨h, hm.symm⟩
    · rintro ⟨_, rfl⟩; rfl
  · rename_i h
    constructor
    · intro hm
      split at hm <;> split at hm <;> cases hm
    · rintro ⟨hlt, _⟩
      exact absurd hlt h

/-- The pagination step within the range of `int`: the page is
`results[offset : min(offset+limit, len(results))]`. -/
theorem paginate_in_range (results : List File) (offset limit : Int)
    (h0 : 0 ≤ offset) (hle : offset ≤ results.length) (hl : 0 ≤ limit)
    (hsum : offset + limit < (2 : Int) ^ 63) :
    paginate results offset limit
      = .ok (sliceOf results offset (min (offset + limit) results.length)) := by
  have hadd : addInt64 offset limit = offset + limit :=
    addInt64_eq offset limit (by norm_num; omega) hsum
  unfold paginate sliceOf
  simp only [hadd]
  rw [if_neg (not_lt.mpr hle)]
  by_cases hgt : offset + limit > (results.length : Int)
  · rw [if_pos hgt, if_pos h0, min_eq_right (le_of_lt hgt)]
    simp
  · rw [if_neg hgt, if_pos ⟨h0, by omega⟩, min_eq_left (not_lt.mp hgt)]

theorem QueryData_of_store_ok (s : SliceSorter) (env : Store) (now : Time) (q : QueryRequest)
    (hc : env.config = none) (hn : env.connect = none) (hf : env.findErr = none)
    (hd : env.decodeErr = none) :
    QueryData s env now q = paginate (sortedMatches s env.docs now q) q.Offset q.Limit := by
  unfold QueryData sortedMatches
  simp only [hc, hn, hf, hd]

/-! ## Helper lemmas: `ProcessGet` -/

theorem ProcessGet_offset_rejected (s : SliceSorter) (env : Store) (now : Time) (c : Context)
    (h : externalOffset c < 1 ∨ 100 < externalOffset c) :
    ProcessGet s env now c =
      { query := none,
        writes := [(StatusInternalServerError,
          .error "offset should be in this interval: [1, 100]")],
        panicked := false } := by
  unfold externalOffset at h
  unfold ProcessGet
  simp only [gt_iff_lt]
  rw [if_pos h]

theorem ProcessGet_limit_rejected (s : SliceSorter) (env : Store) (now : Time) (c : Context)
    (ho : 1 ≤ externalOffset c ∧ externalOffset c ≤ 100)
    (h : externalLimit c < 1 ∨ 100 < externalLimit c) :
    ProcessGet s env now c =
      { query := none,
        writes := [(StatusInternalServerError,
          .error "limit should be in this interval: [1, 100]")],
        panicked := false } := by
  unfold externalOffset at ho
  unfold externalLimit at h
  unfold ProcessGet
  simp only [gt_iff_lt]
  rw [if_neg (by omega), if_pos h]

theorem ProcessGet_query (s : SliceSorter) (env : Store) (now : Time) (c : Context)
    (ho : 1 ≤ externalOffset c ∧ externalOffset c ≤ 100)
    (hl : 1 ≤ externalLimit c ∧ externalLimit c ≤ 100) :
    (ProcessGet s env now c).query = some (builtQuery c) := by
  unfold externalOffset at ho
  unfold externalLimit at hl
  unfold ProcessGet
  simp only [gt_iff_lt]
  rw [if_neg (by omega), if_neg (by omega)]
  split <;> rfl

theorem DefaultQuery_absent (c : Context) (key defaultValue : String)
    (h : c.Query.lookup key = none) : DefaultQuery c key defaultValue = defaultValue := by
  simp [DefaultQuery, h]

theorem le_leadingValue (digits : List Char) (n : Nat) : n ≤ leadingValue digits n := by
  induction digits generalizing n with
  | nil => exact Nat.le_refl n
  | cons ch rest ih =>
    unfold leadingValue
    cases digitValue ch with
    | none => exact Nat.le_refl n
    | some d => exact Nat.le_trans (by omega) (ih (n * 10 + d))

/-- What `ParseUint` returns, by the number the leading digits write: a range
error when that number exceeds 64 bits, and otherwise the number itself when
all characters are digits and a syntax error when one is not. -/
theorem parseUint_eq (digits : List Char) (n : Nat) (hn : n < 2 ^ 64) :
    parseUint digits n =
      if 2 ^ 64 ≤ leadingValue digits n then .outOfRange
      else if (digits.all fun ch => (digitValue ch).isSome) = true then
        .number (leadingValue digits n)
      else .badChar := by
  induction digits generalizing n with
  | nil =>
    have h : ¬ 2 ^ 64 ≤ n := by omega
    unfold parseUint leadingValue
    rw [if_neg h]
    rfl
  | cons ch rest ih =>
    unfold parseUint leadingValue
    cases hd : digitValue ch with
    | none =>
      have h : ¬ 2 ^ 64 ≤ n := by omega
      simp only [List.all_cons, hd]
      rw [if_neg h]
      rfl
    | some d =>
      simp only [List.all_cons, hd, Option.isSome_some, Bool.true_and]
      have hmono := le_leadingValue rest (n * 10 + d)
      by_cases h1 : maxUint64 / 10 + 1 ≤ n
      · have h2 : 2 ^ 64 ≤ leadingValue rest (n * 10 + d) := by
          unfold maxUint64 at h1
          norm_num at h1 ⊢
          omega
        rw [if_pos h1, if_pos h2]
      · rw [if_neg h1]
        by_cases h3 : maxUint64 < n * 10 + d
        · have h2 : 2 ^ 64 ≤ leadingValue rest (n * 10 + d) := by
            unfold maxUint64 at h3
            norm_num at h3 ⊢
            omega
          rw [if_pos h3, if_pos h2]
        · rw [if_neg h3]
          exact ih (n * 10 + d) (by unfold maxUint64 at h3; norm_num at h3 ⊢; omega)

/-- On a string that is not a decimal integer `Atoi` yields 0 while the number
its leading digits write stays within 64 bits, and the largest `int`, or the
smallest after a minus sign, once that number exceeds 64 bits. -/
theorem Atoi_of_not_decimal (s : String) (h : isDecimal s = false) :
    (leadingValue (splitSign s.data).2 0 < 2 ^ 64 → Atoi s = 0) ∧
      (2 ^ 64 ≤ leadingValue (splitSign s.data).2 0 →
        Atoi s = if (splitSign s.data).1 = true then -(2 : Int) ^ 63 else (2 : Int) ^ 63 - 1) := by
  unfold isDecimal at h
  unfold Atoi
  cases hs : splitSign s.data with
  | mk neg digits =>
    rw [hs] at h
    simp only
    cases digits with
    | nil =>
      refine ⟨fun _ => rfl, fun hge => ?_⟩
      simp [leadingValue] at hge
    | cons ch rest =>
      have hall : ((ch :: rest).all fun ch => (digitValue ch).isSome) = false := by
        simpa using h
      rw [parseUint_eq (ch :: rest) 0 (by norm_num)]
      constructor
      · intro hlt
        rw [if_neg (by omega), hall]
        rfl
      · intro hge
        rw [if_pos hge]

/-- Slices of at most 12 elements are sorted by insertion in the library, and
then ads of equal `EndAt` keep the order in which the store returned them. -/
theorem sortSlice_keepsStoreOrder_of_short (retrieved : List File)
    (h : retrieved.length ≤ 12) :
    ∃ sorted, sortSlice retrieved (fun a b => decide (a.EndAt < b.EndAt)) = some sorted ∧
      keepsStoreOrder retrieved sorted := by
  refine ⟨insertionSort_func (fun a b => decide (a.EndAt < b.EndAt)) retrieved 0
    retrieved.length, ?_, insertionSort_func_keepsStoreOrder retrieved 0 retrieved.length⟩
  unfold sortSlice pdqsort_func
  simp [h]

/-! ## Claims C11 to C20 -/

/-- C11 fails in the code: the store returns thirteen active ads, of which the
first twelve end at the same instant and the last one earlier, and the request
asks for all of them; `QueryData` sorts them with `sort.Slice`, which is not
stable, and returns `ad6` before `ad0` and `ad1` after `ad11`, not in the
order in which the store returned them. -/
theorem C11_sort_not_stable :
    find (queryFilter 0 (pageQuery 0 13)) (storeOf thirteenAds).docs = thirteenAds ∧
      sortSlice thirteenAds (fun a b => decide (a.EndAt < b.EndAt)) = some thirteenSorted ∧
      QueryData librarySorter (storeOf thirteenAds) 0 (pageQuery 0 13) = .ok thirteenSorted ∧
      ¬ keepsStoreOrder thirteenAds thirteenSorted := by
  refine ⟨by decide, by decide, by decide, ?_⟩
  intro h
  have h2 := h 2
  revert h2
  decide

/-- C12, as stated, fails at one result and offset 1: with the limit
`2^63 - 1` the sum `Offset + Limit` wraps to a negative number, with the limit
`-1` it is below the offset, and the slice expression panics in both cases
instead of returning an empty page. -/
theorem C12_offset_equal_length_counterexample :
    paginate [testAd "test AD" 1 none] 1 (2 ^ 63 - 1) = .panic ∧
      paginate [testAd "test AD" 1 none] 1 (-1) = .panic := by
  constructor <;> decide

/-- C12, amended: for every offset that is not negative and every limit the
pagination step fails exactly when the offset exceeds the number of results,
and then with the error `offset is out of index in the query results`; when
the offset equals that number and the limit is not negative and
`offset + limit` stays below `2^63`, the step returns the empty page. -/
theorem C12_pagination_fails_iff (results : List File) (offset limit : Int)
    (_h0 : 0 ≤ offset) :
    ((∃ msg, paginate results offset limit = .fail msg) ↔ (results.length : Int) < offset) ∧
      (∀ msg, paginate results offset limit = .fail msg →
        msg = "offset is out of index in the query results") ∧
      (offset = results.length → 0 ≤ limit → offset + limit < (2 : Int) ^ 63 →
        paginate results offset limit = .ok []) := by
  refine ⟨⟨?_, ?_⟩, ?_, ?_⟩
  · rintro ⟨msg, hm⟩
    exact ((paginate_fail_iff results offset limit msg).mp hm).1
  · intro hlt
    exact ⟨_, (paginate_fail_iff results offset limit _).mpr ⟨hlt, rfl⟩⟩
  · intro msg hm
    exact ((paginate_fail_iff results offset limit msg).mp hm).2
  · intro heq hl hsum
    rw [paginate_in_range results offset limit (by omega) (by omega) hl hsum]
    simp [sliceOf, heq]

/-- C12, amended, at the three ads of `TestQuery_Offset_TooMuch`: offset 4
fails, offset 3 returns the empty page. -/
theorem C12_pagination_fails_iff_witness :
    (0 : Int) ≤ 4 ∧
      paginate threeAds 4 5 = .fail "offset is out of index in the query results" ∧
      paginate threeAds 3 5 = .ok [] :=
  ⟨by decide,
    by
      obtain ⟨msg, hm⟩ := (C12_pagination_fails_iff threeAds 4 5 (by decide)).1.mpr (by decide)
      rw [hm, (C12_pagination_fails_iff threeAds 4 5 (by decide)).2.1 msg hm],
    (C12_pagination_fails_iff threeAds 3 5 (by decide)).2.2 rfl (by decide) (by decide)⟩

/-- C13, as stated, fails at three results, offset 1 and limit `2^63 - 1`:
`Offset + Limit` wraps to a negative number and `QueryData` panics instead of
returning the second and third ad. -/
theorem C13_page_counterexample :
    QueryData insertionSorter (storeOf threeAds) 0 (pageQuery 1 (2 ^ 63 - 1)) = .panic ∧
      sliceOf threeAds 1 (min (1 + (2 ^ 63 - 1)) 3)
        = [testAd "test AD1" 2 (some [nilCondition]), testAd "test AD2" 3 (some [nilCondition])] := by
  constructor <;> decide

/-- C13, amended: when the store answers, `0 ≤ Offset ≤ n`, `0 ≤ Limit` and
`Offset + Limit` stays below `2^63`, `QueryData` returns exactly
`results[Offset : min(Offset+Limit, n)]` of the sorted matching ads. -/
theorem C13_page_is_slice (s : SliceSorter) (env : Store) (now : Time) (q : QueryRequest)
    (hc : env.config = none) (hn : env.connect = none) (hf : env.findErr = none)
    (hd : env.decodeErr = none) (h0 : 0 ≤ q.Offset)
    (hle : q.Offset ≤ (sortedMatches s env.docs now q).length) (hl : 0 ≤ q.Limit)
    (hsum : q.Offset + q.Limit < (2 : Int) ^ 63) :
    QueryData s env now q
      = .ok (sliceOf (sortedMatches s env.docs now q) q.Offset
          (min (q.Offset + q.Limit) (sortedMatches s env.docs now q).length)) := by
  rw [QueryData_of_store_ok s env now q hc hn hf hd]
  exact paginate_in_range _ _ _ h0 hle hl hsum

/-- C13, amended, at the three ads of `TestQuery_Offset`: offset 1 and limit 5
return the second and the third ad, offset 1 and limit 1 the second ad. -/
theorem C13_page_is_slice_witness :
    QueryData insertionSorter (storeOf threeAds) 0 (pageQuery 1 5)
        = .ok [testAd "test AD1" 2 (some [nilCondition]),
            testAd "test AD2" 3 (some [nilCondition])] ∧
      QueryData insertionSorter (storeOf threeAds) 0 (pageQuery 1 1)
        = .ok [testAd "test AD1" 2 (some [nilCondition])] :=
  ⟨(C13_page_is_slice insertionSorter (storeOf threeAds) 0 (pageQuery 1 5) rfl rfl rfl rfl
      (by decide) (by decide) (by decide) (by decide)).trans (by decide),
    (C13_page_is_slice insertionSorter (storeOf threeAds) 0 (pageQuery 1 1) rfl rfl rfl rfl
      (by decide) (by decide) (by decide) (by decide)).trans (by decide)⟩

/-- C14: when reading the cursor into `results` fails, `QueryData` returns an
empty page and no error, whereas a failure of the settings, of the connection
or of `find` is returned as the error. -/
theorem C14_decode_failure_returns_no_error :
    QueryData insertionSorter (decodeFailure threeAds) 0 (pageQuery 0 5) = .ok [] ∧
      (QueryData insertionSorter (decodeFailure threeAds) 0 (pageQuery 0 5)).err = none ∧
      QueryData insertionSorter { storeOf threeAds with config := some "no settings" } 0
        (pageQuery 0 5) = .fail "no settings" ∧
      QueryData insertionSorter { storeOf threeAds with connect := some "no connection" } 0
        (pageQuery 0 5) = .fail "no connection" ∧
      QueryData insertionSorter { storeOf threeAds with findErr := some "find failed" } 0
        (pageQuery 0 5) = .fail "find failed" := by
  refine ⟨?_, ?_, ?_, ?_, ?_⟩ <;> decide

/-- C15: for a request without parameters on an empty collection `QueryData`
returns the out-of-range error, and `ProcessGet` writes the error body and
after it the success body with an empty item list. -/
theorem C15_error_followed_by_items :
    QueryData insertionSorter (storeOf []) 0 (pageQuery 4 5)
        = .fail "offset is out of index in the query results" ∧
      (ProcessGet insertionSorter (storeOf []) 0 (getContext [])).writes
        = [(StatusInternalServerError, .error "offset is out of index in the query results"),
            (StatusOK, .items [])] := by
  constructor <;> decide

/-- C16: when the insert fails, `StoreData` returns the error, and
`ProcessPost` writes the error body and after it the success body. -/
theorem C16_error_followed_by_success :
    (ProcessPost { config := none, connect := none, insert := some "insert failed" }
        (postContext validPost)).writes
      = [(StatusInternalServerError, .error "insert failed"),
          (StatusOK, .posted "test AD")] := by
  decide

theorem ProcessGet_query_some (s : SliceSorter) (env : Store) (now : Time) (c : Context)
    (q : QueryRequest) (h : (ProcessGet s env now c).query = some q) :
    q = builtQuery c ∧ (1 ≤ externalOffset c ∧ externalOffset c ≤ 100) ∧
      (1 ≤ externalLimit c ∧ externalLimit c ≤ 100) := by
  by_cases ho : externalOffset c < 1 ∨ 100 < externalOffset c
  · rw [ProcessGet_offset_rejected s env now c ho] at h
    cases h
  · have ho2 : 1 ≤ externalOffset c ∧ externalOffset c ≤ 100 := by omega
    by_cases hl : externalLimit c < 1 ∨ 100 < externalLimit c
    · rw [ProcessGet_limit_rejected s env now c ho2 hl] at h
      cases h
    · have hl2 : 1 ≤ externalLimit c ∧ externalLimit c ≤ 100 := by omega
      rw [ProcessGet_query s env now c ho2 hl2] at h
      injection h with h
      exact ⟨h.symm, ho2, hl2⟩

/-- C17: when the parsed offset and the parsed limit lie in [1, 100], the
request `ProcessGet` passes to `QueryData` has the offset minus 1 as `Offset`
and the limit unchanged as `Limit`. -/
theorem C17_offset_decremented_limit_kept (s : SliceSorter) (env : Store) (now : Time)
    (c : Context) (ho : 1 ≤ externalOffset c ∧ externalOffset c ≤ 100)
    (hl : 1 ≤ externalLimit c ∧ externalLimit c ≤ 100) :
    ∃ q, (ProcessGet s env now c).query = some q ∧ q.Offset = externalOffset c - 1 ∧
      q.Limit = externalLimit c :=
  ⟨builtQuery c, ProcessGet_query s env now c ho hl, rfl, rfl⟩

/-- C17, at the request `?offset=55` of `TestProcessGet_Offset_InRange`: the
call has `Offset` 54 and the default `Limit` 5. -/
theorem C17_offset_decremented_limit_kept_witness :
    externalOffset (getContext [("offset", "55")]) = 55 ∧
      externalLimit (getContext [("offset", "55")]) = 5 ∧
      ∃ q, (ProcessGet insertionSorter (storeOf []) 0 (getContext [("offset", "55")])).query
          = some q ∧
        q.Offset = externalOffset (getContext [("offset", "55")]) - 1 ∧
        q.Limit = externalLimit (getContext [("offset", "55")]) :=
  ⟨by decide, by decide,
    C17_offset_decremented_limit_kept insertionSorter (storeOf []) 0
      (getContext [("offset", "55")]) (by decide) (by decide)⟩

/-- C18, counterexample: the parameter `offset=99999999999999999999a` is not a
decimal integer, and `ProcessGet` parses it as the largest `int`, not as 0:
`strconv.Atoi` meets the range error at the twentieth digit, before it reads
the letter. The request is rejected all the same. -/
theorem C18_not_integer_not_zero_counterexample :
    isDecimal (DefaultQuery (getContext [("offset", "99999999999999999999a")]) "offset" "5")
        = false ∧
      externalOffset (getContext [("offset", "99999999999999999999a")]) = 2 ^ 63 - 1 ∧
      externalOffset (getContext [("offset", "99999999999999999999a")]) ≠ 0 ∧
      (ProcessGet insertionSorter (storeOf threeAds) 0
        (getContext [("offset", "99999999999999999999a")])).rejected := by
  refine ⟨by decide, by decide, by decide, ?_⟩
  rw [ProcessGet_offset_rejected insertionSorter (storeOf threeAds) 0 _ (Or.inr (by decide))]
  exact ⟨rfl, _, rfl⟩

/-- C18, amended: `ProcessGet` rejects a request exactly when the parsed offset
lies outside [1, 100] or, the offset lying inside, the parsed limit lies
outside [1, 100]; an offset outside yields the one answer 500 with the error
`offset should be in this interval: [1, 100]` and no call of `QueryData`; an
offset parameter that is not a decimal integer is parsed as 0 while its
leading digits stay within 64 bits, and as the largest `int` (the smallest
after a minus sign) once they exceed 64 bits, and is rejected in every case. -/
theorem C18_rejected_iff (s : SliceSorter) (env : Store) (now : Time) (c : Context) :
    ((ProcessGet s env now c).rejected ↔
        (externalOffset c < 1 ∨ 100 < externalOffset c) ∨
          ((1 ≤ externalOffset c ∧ externalOffset c ≤ 100) ∧
            (externalLimit c < 1 ∨ 100 < externalLimit c))) ∧
      ((externalOffset c < 1 ∨ 100 < externalOffset c) →
        ProcessGet s env now c =
          { query := none,
            writes := [(StatusInternalServerError,
              .error "offset should be in this interval: [1, 100]")],
            panicked := false }) ∧
      (isDecimal (DefaultQuery c "offset" "5") = false →
        (leadingValue (splitSign (DefaultQuery c "offset" "5").data).2 0 < 2 ^ 64 →
          externalOffset c = 0) ∧
        (2 ^ 64 ≤ leadingValue (splitSign (DefaultQuery c "offset" "5").data).2 0 →
          externalOffset c =
            if (splitSign (DefaultQuery c "offset" "5").data).1 = true then -(2 : Int) ^ 63
            else (2 : Int) ^ 63 - 1) ∧
        (ProcessGet s env now c).rejected) := by
  have hrej : (externalOffset c < 1 ∨ 100 < externalOffset c) →
      (ProcessGet s env now c).rejected := by
    intro ho
    rw [ProcessGet_offset_rejected s env now c ho]
    exact ⟨rfl, _, rfl⟩
  refine ⟨⟨?_, ?_⟩, ProcessGet_offset_rejected s env now c, ?_⟩
  · intro hr
    by_cases ho : externalOffset c < 1 ∨ 100 < externalOffset c
    · exact Or.inl ho
    · have ho2 : 1 ≤ externalOffset c ∧ externalOffset c ≤ 100 := by omega
      refine Or.inr ⟨ho2, ?_⟩
      by_contra hl
      have hl2 : 1 ≤ externalLimit c ∧ externalLimit c ≤ 100 := by omega
      have hq := ProcessGet_query s env now c ho2 hl2
      rw [hr.1] at hq
      cases hq
  · rintro (ho | ⟨ho, hl⟩)
    · exact hrej ho
    · rw [ProcessGet_limit_rejected s env now c ho hl]
      exact ⟨rfl, _, rfl⟩
  · intro hd
    have hA := Atoi_of_not_decimal _ hd
    refine ⟨hA.1, hA.2, ?_⟩
    apply hrej
    by_cases hlt : leadingValue (splitSign (DefaultQuery c "offset" "5").data).2 0 < 2 ^ 64
    · have h0 : externalOffset c = 0 := hA.1 hlt
      omega
    · have h1 := hA.2 (by omega)
      change externalOffset c = _ at h1
      split at h1
      · left
        rw [h1]
        norm_num
      · right
        rw [h1]
        norm_num

/-- C18, at the requests `?offset=0` and `?offset=101` of
`TestProcessGet_Offset_OutRange`, at `?offset=abc` and at
`?offset=-99999999999999999999a`. -/
theorem C18_rejected_iff_witness :
    (ProcessGet insertionSorter (storeOf threeAds) 0 (getContext [("offset", "0")])).rejected ∧
      ProcessGet insertionSorter (storeOf threeAds) 0 (getContext [("offset", "101")]) =
        { query := none,
          writes := [(StatusInternalServerError,
            .error "offset should be in this interval: [1, 100]")],
          panicked := false } ∧
      externalOffset (getContext [("offset", "abc")]) = 0 ∧
      externalOffset (getContext [("offset", "-99999999999999999999a")]) = -(2 : Int) ^ 63 :=
  ⟨(C18_rejected_iff insertionSorter (storeOf threeAds) 0 (getContext [("offset", "0")])).1.mpr
      (Or.inl (by decide)),
    (C18_rejected_iff insertionSorter (storeOf threeAds) 0
      (getContext [("offset", "101")])).2.1 (Or.inr (by decide)),
    ((C18_rejected_iff insertionSorter (storeOf threeAds) 0
      (getContext [("offset", "abc")])).2.2 (by decide)).1 (by decide),
    ((C18_rejected_iff insertionSorter (storeOf threeAds) 0
      (getContext [("offset", "-99999999999999999999a")])).2.2 (by decide)).2.1 (by decide)⟩

/-- C19: with a parsed offset in [1, 100], a parsed limit outside [1, 100]
yields the one answer 500 with the error
`limit should be in this interval: [1, 100]` and no call of `QueryData`, and a
parsed limit inside [1, 100] passes: `QueryData` is called. -/
theorem C19_limit_validation (s : SliceSorter) (env : Store) (now : Time) (c : Context)
    (ho : 1 ≤ externalOffset c ∧ externalOffset c ≤ 100) :
    ((externalLimit c < 1 ∨ 100 < externalLimit c) →
        ProcessGet s env now c =
          { query := none,
            writes := [(StatusInternalServerError,
              .error "limit should be in this interval: [1, 100]")],
            panicked := false }) ∧
      ((1 ≤ externalLimit c ∧ externalLimit c ≤ 100) →
        (∃ q, (ProcessGet s env now c).query = some q) ∧ ¬ (ProcessGet s env now c).rejected) := by
  refine ⟨ProcessGet_limit_rejected s env now c ho, ?_⟩
  intro hl
  have hq := ProcessGet_query s env now c ho hl
  refine ⟨⟨_, hq⟩, ?_⟩
  intro hr
  rw [hr.1] at hq
  cases hq

/-- C19, at the requests `?limit=0`, `?limit=101` and `?limit=55` of
`TestProcessGet_Limit_OutRange` and `TestProcessGet_Limit_InRange`. -/
theorem C19_limit_validation_witness :
    ProcessGet insertionSorter (storeOf threeAds) 0 (getContext [("limit", "0")]) =
        { query := none,
          writes := [(StatusInternalServerError,
            .error "limit should be in this interval: [1, 100]")],
          panicked := false } ∧
      ProcessGet insertionSorter (storeOf threeAds) 0 (getContext [("limit", "101")]) =
        { query := none,
          writes := [(StatusInternalServerError,
            .error "limit should be in this interval: [1, 100]")],
          panicked := false } ∧
      ((∃ q, (ProcessGet insertionSorter (storeOf threeAds) 0
          (getContext [("limit", "55")])).query = some q) ∧
        ¬ (ProcessGet insertionSorter (storeOf threeAds) 0
          (getContext [("limit", "55")])).rejected) :=
  ⟨(C19_limit_validation insertionSorter (storeOf threeAds) 0 (getContext [("limit", "0")])
      (by decide)).1 (Or.inl (by decide)),
    (C19_limit_validation insertionSorter (storeOf threeAds) 0 (getContext [("limit", "101")])
      (by decide)).1 (Or.inr (by decide)),
    (C19_limit_validation insertionSorter (storeOf threeAds) 0 (getContext [("limit", "55")])
      (by decide)).2 (by decide)⟩

/-- C20: an omitted offset is parsed as 5 and becomes `Offset` 4, an omitted
limit is parsed as 5 and becomes `Limit` 5, and in the request passed to
`QueryData` an omitted age is 0 and an omitted gender, country or platform is
the empty string. -/
theorem C20_defaults (s : SliceSorter) (env : Store) (now : Time) (c : Context) :
    (c.Query.lookup "offset" = none → (1 ≤ externalLimit c ∧ externalLimit c ≤ 100) →
        ∃ q, (ProcessGet s env now c).query = some q ∧ q.Offset = 4) ∧
      (c.Query.lookup "limit" = none → (1 ≤ externalOffset c ∧ externalOffset c ≤ 100) →
        ∃ q, (ProcessGet s env now c).query = some q ∧ q.Limit = 5) ∧
      (∀ q, (ProcessGet s env now c).query = some q →
        (c.Query.lookup "age" = none → q.Age = 0) ∧
          (c.Query.lookup "gender" = none → q.Gender = "") ∧
          (c.Query.lookup "country" = none → q.Country = "") ∧
          (c.Query.lookup "platform" = none → q.Platform = "")) := by
  have h5 : Atoi "5" = 5 := by decide
  have h0 : Atoi "0" = 0 := by decide
  refine ⟨?_, ?_, ?_⟩
  · intro ha hl
    have ho : externalOffset c = 5 := by
      unfold externalOffset
      rw [DefaultQuery_absent c "offset" "5" ha, h5]
    refine ⟨builtQuery c, ProcessGet_query s env now c (by omega) hl, ?_⟩
    show externalOffset c - 1 = 4
    omega
  · intro ha ho
    have hl : externalLimit c = 5 := by
      unfold externalLimit
      rw [DefaultQuery_absent c "limit" "5" ha, h5]
    exact ⟨builtQuery c, ProcessGet_query s env now c ho (by omega), hl⟩
  · intro q hq
    obtain ⟨rfl, _, _⟩ := ProcessGet_query_some s env now c q hq
    refine ⟨?_, ?_, ?_, ?_⟩
    · intro ha
      show Atoi (DefaultQuery c "age" "0") = 0
      rw [DefaultQuery_absent c "age" "0" ha, h0]
    · intro ha
      exact DefaultQuery_absent c "gender" "" ha
    · intro ha
      exact DefaultQuery_absent c "country" "" ha
    · intro ha
      exact DefaultQuery_absent c "platform" "" ha

/-- C20, at the request without any parameter: the call has `Offset` 4,
`Limit` 5, age 0 and empty gender, country and platform. -/
theorem C20_defaults_witness :
    (ProcessGet insertionSorter (storeOf threeAds) 0 (getContext [])).query
        = some { ClientIP := "", Headers := [], Offset := 4, Limit := 5, Age := 0,
                 Gender := "", Country := "", Platform := "" } ∧
      ∃ q, (ProcessGet insertionSorter (storeOf threeAds) 0 (getContext [])).query = some q ∧
        q.Offset = 4 :=
  ⟨by decide,
    (C20_defaults insertionSorter (storeOf threeAds) 0 (getContext [])).1 rfl (by decide)⟩

/-! ## Helper lemmas: the answers of the handlers -/

theorem ProcessGet_unfold (s : SliceSorter) (env : Store) (now : Time) (c : Context)
    (ho : 1 ≤ externalOffset c ∧ externalOffset c ≤ 100)
    (hl : 1 ≤ externalLimit c ∧ externalLimit c ≤ 100) :
    ProcessGet s env now c =
      match QueryData s env now (builtQuery c) with
      | .panic => { query := some (builtQuery c), writes := [], panicked := true }
      | outcome =>
        { query := some (builtQuery c),
          writes := (match outcome.err with
              | some err => [(StatusInternalServerError, Body.error err)]
              | none => []) ++ [(StatusOK, .items (outcome.results.map itemOf))],
          panicked := false } := by
  unfold externalOffset at ho
  unfold externalLimit at hl
  unfold ProcessGet
  simp only [gt_iff_lt]
  rw [if_neg (by omega), if_neg (by omega)]
  rfl

theorem ProcessGet_writes_ok (s : SliceSorter) (env : Store) (now : Time) (c : Context)
    (q : QueryRequest) (page : List File) (hq : (ProcessGet s env now c).query = some q)
    (h : QueryData s env now q = .ok page) :
    (ProcessGet s env now c).writes = [(StatusOK, .items (page.map itemOf))] := by
  obtain ⟨rfl, ho, hl⟩ := ProcessGet_query_some s env now c q hq
  rw [ProcessGet_unfold s env now c ho hl, h]
  rfl

theorem paginate_ne_panic (results : List File) (offset limit : Int) (h0 : 0 ≤ offset)
    (hl : 0 ≤ limit) (hsum : offset + limit < (2 : Int) ^ 63) :
    paginate results offset limit ≠ .panic := by
  by_cases hle : offset ≤ (results.length : Int)
  · rw [paginate_in_range results offset limit h0 hle hl hsum]
    exact fun h => Outcome.noConfusion h
  · rw [(paginate_fail_iff results offset limit _).mpr ⟨not_le.mp hle, rfl⟩]
    exact fun h => Outcome.noConfusion h

theorem QueryData_ne_panic (s : SliceSorter) (env : Store) (now : Time) (q : QueryRequest)
    (h0 : 0 ≤ q.Offset) (hl : 0 ≤ q.Limit) (hsum : q.Offset + q.Limit < (2 : Int) ^ 63) :
    QueryData s env now q ≠ .panic := by
  unfold QueryData
  split
  · exact fun h => Outcome.noConfusion h
  · split
    · exact fun h => Outcome.noConfusion h
    · split
      · exact fun h => Outcome.noConfusion h
      · split
        · exact fun h => Outcome.noConfusion h
        · exact paginate_ne_panic _ _ _ h0 hl hsum

theorem ProcessGet_not_panicked (s : SliceSorter) (env : Store) (now : Time) (c : Context) :
    (ProcessGet s env now c).panicked = false := by
  by_cases ho : externalOffset c < 1 ∨ 100 < externalOffset c
  · rw [ProcessGet_offset_rejected s env now c ho]
  · have ho2 : 1 ≤ externalOffset c ∧ externalOffset c ≤ 100 := by omega
    by_cases hl : externalLimit c < 1 ∨ 100 < externalLimit c
    · rw [ProcessGet_limit_rejected s env now c ho2 hl]
    · have hl2 : 1 ≤ externalLimit c ∧ externalLimit c ≤ 100 := by omega
      have hq : QueryData s env now (builtQuery c) ≠ .panic := by
        apply QueryData_ne_panic
        · show 0 ≤ externalOffset c - 1
          omega
        · show 0 ≤ externalLimit c
          omega
        · show externalOffset c - 1 + externalLimit c < (2 : Int) ^ 63
          norm_num
          omega
      rw [ProcessGet_unfold s env now c ho2 hl2]
      split
      · rename_i h
        exact absurd h hq
      · rfl

/-- Three neighbouring cuts of a list: the pieces `[a, b)` and `[b, c)` make up
the piece `[a, c)`. -/
theorem drop_take_append (l : List File) (a b c : Nat) (hab : a ≤ b) (hbc : b ≤ c)
    (hb : b ≤ l.length) :
    (l.take b).drop a ++ (l.take c).drop b = (l.take c).drop a := by
  have h1 : l.take c = l.take b ++ (l.take c).drop b := by
    have := (List.take_append_drop b (l.take c)).symm
    rwa [List.take_take, min_eq_left hbc] at this
  have hlen : (l.take b).length = b := by
    rw [List.length_take]; omega
  conv_rhs => rw [h1]
  rw [List.drop_append_of_le_length (by omega)]

/-- When every store-side step succeeds and `QueryData` returns a page for an
offset with `0 ≤ Offset ≤ n` and a limit that is not negative (`Offset` and
`Limit` being values of type `int`), the page has `min(Limit, n - Offset)`
ads, and so at most `Limit`. -/
theorem QueryData_page_length (s : SliceSorter) (env : Store) (now : Time) (q : QueryRequest)
    (page : List File) (hc : env.config = none) (hn : env.connect = none)
    (hf : env.findErr = none) (hd : env.decodeErr = none)
    (hio : isInt q.Offset) (hil : isInt q.Limit)
    (h : QueryData s env now q = .ok page) (h0 : 0 ≤ q.Offset)
    (hle : q.Offset ≤ (sortedMatches s env.docs now q).length) (hl : 0 ≤ q.Limit) :
    (page.length : Int) = min q.Limit ((sortedMatches s env.docs now q).length - q.Offset) ∧
      (page.length : Int) ≤ q.Limit := by
  rw [QueryData_of_store_ok s env now q hc hn hf hd] at h
  have hlen : (page.length : Int)
      = min q.Limit ((sortedMatches s env.docs now q).length - q.Offset) := by
    by_cases hsum : q.Offset + q.Limit < (2 : Int) ^ 63
    · rw [paginate_in_range _ _ _ h0 hle hl hsum] at h
      injection h with h
      rw [← h]
      unfold sliceOf
      rw [List.length_drop, List.length_take]
      omega
    · exfalso
      have hwrap : addInt64 q.Offset q.Limit = q.Offset + q.Limit - (2 : Int) ^ 64 := by
        unfold isInt at hio hil
        unfold addInt64
        norm_num at hsum hio hil ⊢
        omega
      unfold paginate at h
      simp only [hwrap] at h
      rw [if_neg (not_lt.mpr hle), if_neg, if_neg] at h
      · cases h
      · unfold isInt at hio hil
        norm_num at hsum hio hil ⊢
        omega
      · unfold isInt at hio hil
        norm_num at hsum hio hil ⊢
        omega
  exact ⟨hlen, by rw [hlen]; exact min_le_left _ _⟩

/-! ## Claims C21 to C30 -/

/-- C21: when `QueryData` returns a page without error, `ProcessGet` answers
200 with one item per result, in the order of the page, item `i` carrying the
title and the `EndAt` of result `i`; the items are in non-decreasing order of
`Endat`. -/
theorem C21_items_mirror_page (s : SliceSorter) (env : Store) (now : Time) (c : Context)
    (q : QueryRequest) (page : List File)
    (hq : (ProcessGet s env now c).query = some q) (h : QueryData s env now q = .ok page) :
    (ProcessGet s env now c).writes = [(StatusOK, .items (page.map itemOf))] ∧
      (page.map itemOf).length = page.length ∧
      (∀ i : Nat, (page.map itemOf)[i]? = (page[i]?).map itemOf) ∧
      (∀ result : File,
        (itemOf result).Title = result.Title ∧ (itemOf result).Endat = result.EndAt) ∧
      (page.map itemOf).Pairwise (fun a b => a.Endat ≤ b.Endat) := by
  refine ⟨ProcessGet_writes_ok s env now c q page hq h, List.length_map _ _, ?_, ?_, ?_⟩
  · intro i
    exact List.getElem?_map _ _ _
  · intro result
    exact ⟨rfl, rfl⟩
  · rw [List.pairwise_map]
    exact (s.sorted _ File.EndAt).sublist (QueryData_ok s env now q page h)

/-- C21, at the three ads of `TestQuery_Sort` stored in the order 3, 2, 1 days
and the request `?offset=1&limit=3`. -/
theorem C21_items_mirror_page_witness :
    (ProcessGet insertionSorter (storeOf threeAds.reverse) 0
        (getContext [("offset", "1"), ("limit", "3")])).writes
      = [(StatusOK, .items [{ Title := "test AD0", Endat := 1 },
          { Title := "test AD1", Endat := 2 }, { Title := "test AD2", Endat := 3 }])] :=
  (C21_items_mirror_page insertionSorter (storeOf threeAds.reverse) 0
    (getContext [("offset", "1"), ("limit", "3")])
    (builtQuery (getContext [("offset", "1"), ("limit", "3")])) threeAds
    (by decide) (by decide)).1

/-- C22: a create request bound to an empty title gets the one answer 500 with
the error `title is nil`, and `StoreData` is not called, whatever the other
fields are. -/
theorem C22_empty_title_rejected (env : InsertEnv) (c : PostContext) (bound : File)
    (hb : c.Bind = .ok bound) (ht : bound.Title = "") :
    ProcessPost env c =
      { stored := none, writes := [(StatusInternalServerError, .error "title is nil")] } := by
  unfold ProcessPost
  rw [hb]
  simp only [if_pos ht]

/-- C22, at the request of `TestProcessPost_Title`, which has the two times
and no title. -/
theorem C22_empty_title_rejected_witness :
    ProcessPost insertOk (postContext { validPost with Title := "" }) =
      { stored := none, writes := [(StatusInternalServerError, .error "title is nil")] } :=
  C22_empty_title_rejected insertOk (postContext { validPost with Title := "" })
    { validPost with Title := "" } rfl rfl

/-- C23, counterexample: a create request with a title whose start time is
the zero instant written with a numeric offset (`0001-01-01T00:00:00+00:00`)
passes the start-time check, because the bound `time.Time` has a location and
`==` compares it with the nil location of `time.Time{}`: the ad is handed to
`StoreData` and the answer is 200. -/
theorem C23_zero_instant_with_offset_counterexample :
    offsetZeroStart.Bind = .ok zeroStartPost ∧ zeroStartPost.Title ≠ "" ∧
      zeroStartPost.StartAt = zeroTime ∧
      ProcessPost insertOk offsetZeroStart =
        { stored := some (adOf offsetZeroStart zeroStartPost),
          writes := [(StatusOK, .posted "test AD")] } ∧
      ProcessPost insertOk offsetZeroStart ≠
        { stored := none,
          writes := [(StatusInternalServerError, .error "start time is nil")] } :=
  ⟨rfl, by decide, rfl, by decide, by decide⟩

/-- C23, amended: a create request with a title gets the one answer 500 with
the error `start time is nil` when its `StartAt` is the zero value
`time.Time{}` (the zero instant to the nanosecond, with the nil location), and
with the error `end time is nil` when its `StartAt` is not the zero value and
its `EndAt` is; `StoreData` is not called in either case. -/
theorem C23_zero_times_rejected (env : InsertEnv) (c : PostContext) (bound : File)
    (hb : c.Bind = .ok bound) (ht : bound.Title ≠ "") :
    (bound.StartAt = zeroTime ∧ c.StartExtra = zeroExtra →
        ProcessPost env c =
          { stored := none,
            writes := [(StatusInternalServerError, .error "start time is nil")] }) ∧
      (¬ (bound.StartAt = zeroTime ∧ c.StartExtra = zeroExtra) →
        bound.EndAt = zeroTime ∧ c.EndExtra = zeroExtra →
        ProcessPost env c =
          { stored := none,
            writes := [(StatusInternalServerError, .error "end time is nil")] }) := by
  constructor
  · intro hs
    unfold ProcessPost
    rw [hb]
    simp only [if_neg ht, if_pos hs]
  · intro hs he
    unfold ProcessPost
    rw [hb]
    simp only [if_neg ht, if_neg hs, if_pos he]

/-- C23, at the requests of `TestProcessPost_StartTime` and
`TestProcessPost_EndTime`, whose bodies leave out one of the two times. -/
theorem C23_zero_times_rejected_witness :
    ProcessPost insertOk (postContext zeroStartPost) =
        { stored := none,
          writes := [(StatusInternalServerError, .error "start time is nil")] } ∧
      ProcessPost insertOk (postContext zeroEndPost) =
        { stored := none,
          writes := [(StatusInternalServerError, .error "end time is nil")] } :=
  ⟨(C23_zero_times_rejected insertOk (postContext zeroStartPost) zeroStartPost rfl
      (by decide)).1 ⟨rfl, rfl⟩,
    (C23_zero_times_rejected insertOk (postContext zeroEndPost) zeroEndPost rfl
      (by decide)).2 (by decide) ⟨rfl, rfl⟩⟩

/-- C26: the filter `QueryData` builds for a request is the filter of the
request that keeps only its last present dimension (in the order age, gender,
country, platform), which has at most one dimension present; both filters
select the same ads. -/
theorem C26_filter_of_last_dimension (now : Time) (q : QueryRequest) :
    queryFilter now q = queryFilter now (lastDimension q) ∧
      presentDimensions (lastDimension q) ≤ 1 ∧
      ∀ ad : File, satisfiesFilter now q ad = satisfiesFilter now (lastDimension q) ad := by
  have hfilter : queryFilter now q = queryFilter now (lastDimension q) := by
    by_cases hA : q.Age = 0 <;> by_cases hG : q.Gender = "" <;>
      by_cases hC : q.Country = "" <;> by_cases hP : q.Platform = "" <;>
      simp [queryFilter, lastDimension, M.set, hA, hG, hC, hP]
  refine ⟨hfilter, ?_, ?_⟩
  · by_cases hA : q.Age = 0 <;> by_cases hG : q.Gender = "" <;>
      by_cases hC : q.Country = "" <;> by_cases hP : q.Platform = "" <;>
      simp [presentDimensions, lastDimension, hA, hG, hC, hP]
  · intro ad
    unfold satisfiesFilter
    rw [hfilter]

/-- C26, at age 25 together with gender `M`: the filter is the filter of gender
`M` alone, and an ad aimed at ages 30 to 40 is selected by both. -/
theorem C26_filter_of_last_dimension_witness :
    lastDimension (dimQuery 25 "M" "" "") = dimQuery 0 "M" "" "" ∧
      queryFilter 0 (dimQuery 25 "M" "" "") = queryFilter 0 (dimQuery 0 "M" "" "") ∧
      satisfiesFilter 0 (dimQuery 25 "M" "" "") (testAd "test AD" 1 (some [ageCondition 30 40]))
        = satisfiesFilter 0 (dimQuery 0 "M" "" "")
            (testAd "test AD" 1 (some [ageCondition 30 40])) :=
  ⟨by decide, (C26_filter_of_last_dimension 0 (dimQuery 25 "M" "" "")).1,
    (C26_filter_of_last_dimension 0 (dimQuery 25 "M" "" "")).2.2 _⟩

/-- C27: an active ad with exactly one condition satisfies the filter of an
age-only request exactly when the age lies between `AgeStart` and `AgeEnd` of
that condition or both are 0. -/
theorem C27_single_condition_age (now : Time) (q : QueryRequest) (ad : File) (c : Condition)
    (hA : q.Age ≠ 0) (hG : q.Gender = "") (hC : q.Country = "") (hP : q.Platform = "")
    (hact : now < ad.EndAt) (hc : ad.Conditions = some [c]) :
    satisfiesFilter now q ad = true ↔
      (c.AgeStart ≤ q.Age ∧ q.Age ≤ c.AgeEnd) ∨ (c.AgeStart = 0 ∧ c.AgeEnd = 0) := by
  rw [satisfiesFilter_age_iff now q ad hA hG hC hP]
  simp [File.conds, hc, hact]

/-- C27, at the ad of the age tests, aimed at ages 20 to 30: selected for age
25, not selected for the ages 15 and 35. -/
theorem C27_single_condition_age_witness :
    (satisfiesFilter 0 (dimQuery 25 "" "" "") (testAd "test AD" 1 (some [ageCondition 20 30]))
        = true ↔
      ((ageCondition 20 30).AgeStart ≤ (dimQuery 25 "" "" "").Age ∧
          (dimQuery 25 "" "" "").Age ≤ (ageCondition 20 30).AgeEnd) ∨
        ((ageCondition 20 30).AgeStart = 0 ∧ (ageCondition 20 30).AgeEnd = 0)) ∧
      satisfiesFilter 0 (dimQuery 25 "" "" "") (testAd "test AD" 1 (some [ageCondition 20 30]))
        = true ∧
      satisfiesFilter 0 (dimQuery 15 "" "" "") (testAd "test AD" 1 (some [ageCondition 20 30]))
        = false ∧
      satisfiesFilter 0 (dimQuery 35 "" "" "") (testAd "test AD" 1 (some [ageCondition 20 30]))
        = false :=
  ⟨C27_single_condition_age 0 (dimQuery 25 "" "" "")
      (testAd "test AD" 1 (some [ageCondition 20 30])) (ageCondition 20 30)
      (by decide) rfl rfl rfl (by decide) rfl,
    by decide, by decide, by decide⟩

/-- C28, as stated, fails at three results, offset 2 and limit `2^63 - 1`: both
are not negative, `Offset + Limit` wraps to a negative number and the slice
expression `results[2:hi]` is out of bounds. -/
theorem C28_panic_counterexample :
    (0 : Int) ≤ 2 ∧ (0 : Int) ≤ 2 ^ 63 - 1 ∧ addInt64 2 (2 ^ 63 - 1) = -(2 ^ 63) + 1 ∧
      paginate threeAds 2 (2 ^ 63 - 1) = .panic ∧
      QueryData insertionSorter (storeOf threeAds) 0 (pageQuery 2 (2 ^ 63 - 1)) = .panic := by
  refine ⟨?_, ?_, ?_, ?_, ?_⟩ <;> decide

/-- C28, amended: for every offset and limit that are not negative and whose
sum stays below `2^63` the pagination step does not panic: it fails with the
out-of-range error when the offset exceeds the number of results, and
otherwise returns `results[low:high]` with `0 ≤ low ≤ high ≤ len(results)`;
every request `ProcessGet` produces is of that kind, and no run of
`ProcessGet` panics. -/
theorem C28_pagination_within_bounds (results : List File) (offset limit : Int)
    (h0 : 0 ≤ offset) (hl : 0 ≤ limit) (hsum : offset + limit < (2 : Int) ^ 63) :
    paginate results offset limit ≠ .panic ∧
      ((results.length : Int) < offset →
        paginate results offset limit
          = .fail "offset is out of index in the query results") ∧
      (offset ≤ results.length →
        paginate results offset limit
            = .ok (sliceOf results offset (min (offset + limit) results.length)) ∧
          0 ≤ offset ∧ offset ≤ min (offset + limit) results.length ∧
          min (offset + limit) results.length ≤ results.length) ∧
      (∀ (s : SliceSorter) (env : Store) (now : Time) (c : Context),
        (ProcessGet s env now c).panicked = false ∧
          ∀ q, (ProcessGet s env now c).query = some q →
            (0 ≤ q.Offset ∧ q.Offset ≤ 99) ∧ (1 ≤ q.Limit ∧ q.Limit ≤ 100)) := by
  refine ⟨paginate_ne_panic results offset limit h0 hl hsum, ?_, ?_, ?_⟩
  · intro hlt
    exact (paginate_fail_iff results offset limit _).mpr ⟨hlt, rfl⟩
  · intro hle
    refine ⟨paginate_in_range results offset limit h0 hle hl hsum, h0, ?_, min_le_right _ _⟩
    exact le_min (by omega) hle
  · intro s env now c
    refine ⟨ProcessGet_not_panicked s env now c, ?_⟩
    intro q hq
    obtain ⟨rfl, ho, hlim⟩ := ProcessGet_query_some s env now c q hq
    refine ⟨⟨?_, ?_⟩, hlim⟩
    · show 0 ≤ externalOffset c - 1
      omega
    · show externalOffset c - 1 ≤ 99
      omega

/-- C28, amended, at three results with the largest request of `ProcessGet`,
offset 99 and limit 100, and with offset 1 and limit 5. -/
theorem C28_pagination_within_bounds_witness :
    paginate threeAds 99 100 ≠ .panic ∧ paginate threeAds 1 5 ≠ .panic :=
  ⟨(C28_pagination_within_bounds threeAds 99 100 (by decide) (by decide) (by decide)).1,
    (C28_pagination_within_bounds threeAds 1 5 (by decide) (by decide) (by decide)).1⟩

/-- C29 fails in the code: over three matching ads, with offset 1 and limit 2,
a call in which reading the cursor into `results` fails returns no error and
an empty page, not the `min(2, 3 - 1) = 2` ads of the claim; the cause is the
return statement of C14. -/
theorem C29_page_length_decode_failure :
    (find (queryFilter 0 (pageQuery 1 2)) (decodeFailure threeAds).docs).length = 3 ∧
      0 ≤ (pageQuery 1 2).Offset ∧ (pageQuery 1 2).Offset ≤ 3 ∧ 0 ≤ (pageQuery 1 2).Limit ∧
      QueryData insertionSorter (decodeFailure threeAds) 0 (pageQuery 1 2) = .ok [] ∧
      (QueryData insertionSorter (decodeFailure threeAds) 0 (pageQuery 1 2)).err = none ∧
      (([] : List File).length : Int) ≠ min (pageQuery 1 2).Limit (3 - (pageQuery 1 2).Offset) ∧
      QueryData insertionSorter (storeOf threeAds) 0 (pageQuery 1 2) =
        .ok [testAd "test AD1" 2 (some [nilCondition]),
          testAd "test AD2" 3 (some [nilCondition])] := by
  refine ⟨?_, ?_, ?_, ?_, ?_, ?_, ?_, ?_⟩ <;> decide

/-- C30, as stated, fails at three results, offset 1 and the limits 1 and
`2^63 - 2`: the first page is the second ad, and the request for the next page,
offset 2 and limit `2^63 - 2`, panics, as does the request for both together. -/
theorem C30_tiling_counterexample :
    (1 : Int) + 1 ≤ (threeAds.length : Int) ∧
      paginate threeAds 1 1 = .ok [testAd "test AD1" 2 (some [nilCondition])] ∧
      paginate threeAds (1 + 1) (2 ^ 63 - 2) = .panic ∧
      paginate threeAds 1 (1 + (2 ^ 63 - 2)) = .panic := by
  refine ⟨?_, ?_, ?_, ?_⟩ <;> decide

/-- C30, amended: for an offset and two limits that are not negative, with
`offset + l1 ≤ n` and `offset + l1 + l2` below `2^63`, the page for
`(offset, l1)` followed by the page for `(offset + l1, l2)` is the page for
`(offset, l1 + l2)`. -/
theorem C30_pages_tile (results : List File) (offset l1 l2 : Int) (h0 : 0 ≤ offset)
    (h1 : 0 ≤ l1) (h2 : 0 ≤ l2) (hn : offset + l1 ≤ results.length)
    (hsum : offset + l1 + l2 < (2 : Int) ^ 63) :
    ∃ p1 p2, paginate results offset l1 = .ok p1 ∧
      paginate results (offset + l1) l2 = .ok p2 ∧
      paginate results offset (l1 + l2) = .ok (p1 ++ p2) := by
  refine ⟨_, _, paginate_in_range results offset l1 h0 (by omega) h1 (by omega),
    paginate_in_range results (offset + l1) l2 (by omega) hn h2 hsum, ?_⟩
  rw [paginate_in_range results offset (l1 + l2) h0 (by omega) (by omega) (by omega)]
  congr 1
  unfold sliceOf
  rw [min_eq_left hn, ← add_assoc]
  refine (drop_take_append results _ _ _ ?_ ?_ ?_).symm
  · omega
  · have hmin : offset + l1 ≤ min (offset + l1 + l2) (results.length : Int) :=
      le_min (by omega) hn
    exact Int.toNat_le_toNat hmin
  · omega

/-- C30, amended, at the three ads, offset 0 and the limits 1 and 2. -/
theorem C30_pages_tile_witness :
    ∃ p1 p2, paginate threeAds 0 1 = .ok p1 ∧ paginate threeAds (0 + 1) 2 = .ok p2 ∧
      paginate threeAds 0 (1 + 2) = .ok (p1 ++ p2) :=
  C30_pages_tile threeAds 0 1 2 (by decide) (by decide) (by decide) (by decide) (by decide)

end AdSystem
